import Mathlib

/-!
# Garbage-Segregation: a verification development

A shallow embedding of the two server variants of the repository,
`src/api/index.js` (namespace `Api`) and `src/index.js` (namespace `Legacy`),
followed by theorems about detection filtering, waste-type lookup, box
conversion, annotation colours, the eco score, the inference retry loop and
the upload / download / delete handlers.

Numbers are exact rationals. Strings are Lean strings. A JavaScript value
that is read out of the lookup table is a `JsValue`, because a property read
on a plain object also reaches `Object.prototype`.
-/

set_option autoImplicit false

namespace GarbageSegregation

/-! ## JavaScript values and strings -/

/-- The values a property read on `wasteTypeMapping` can produce: `undefined`,
a string, or a built-in of `Object.prototype` (a function such as
`Object`, or the prototype object itself), named by the property. -/
inductive JsValue where
  | undefined
  | str (s : String)
  | builtin (property : String)
  deriving DecidableEq, Repr

/-- An exception value: `name`, `status` and `message` are the three
properties the handlers read from a caught error. -/
structure JsError where
  name : String
  status : Option Nat
  message : String
  deriving DecidableEq, Repr

/-- JavaScript truthiness of a `JsValue`: `undefined` and the empty string are
falsy, every other string and every function or object is truthy. -/
def JsValue.truthy : JsValue → Bool
  | .undefined => false
  | .str s => s != ""
  | .builtin _ => true

/-- The JavaScript expression `a || b`. -/
def JsValue.or (a b : JsValue) : JsValue :=
  if a.truthy then a else b

/-- ASCII lower-casing of a string, character by character. The concrete
examples use it for `String.prototype.toLowerCase`; the embedding itself takes
the lower-casing function as a parameter. -/
def asciiLower (s : String) : String :=
  String.mk (s.data.map Char.toLower)

/-- The expression `s.charAt(0).toUpperCase() + s.slice(1)` on a string whose
first character, if any, is an ASCII letter. -/
def capitalize (s : String) : String :=
  match s.data with
  | [] => ""
  | c :: cs => String.mk (c.toUpper :: cs)

/-- The method `String.prototype.includes`: `sub` occurs in `s` as a contiguous
run of characters. -/
def includes (s sub : String) : Bool :=
  s.data.tails.any (fun t => sub.data.isPrefixOf t)

/-! ## The waste-type table -/

/-- The own properties of the object literal `wasteTypeMapping`, in source
order (identical in both variants). -/
def wasteTypeEntries : List (String × String) :=
  [ ("banana", "biodegradable"), ("apple", "biodegradable"), ("sandwich", "biodegradable"),
    ("orange", "biodegradable"), ("broccoli", "biodegradable"), ("carrot", "biodegradable"),
    ("pizza", "biodegradable"), ("donut", "biodegradable"), ("cake", "biodegradable"),
    ("hot dog", "biodegradable"), ("dining table", "biodegradable"),
    ("bottle", "non-biodegradable"), ("wine glass", "non-biodegradable"), ("cup", "non-biodegradable"),
    ("fork", "non-biodegradable"), ("knife", "non-biodegradable"), ("spoon", "non-biodegradable"),
    ("bowl", "non-biodegradable"), ("scissors", "non-biodegradable"), ("cell phone", "non-biodegradable"),
    ("laptop", "non-biodegradable"), ("mouse", "non-biodegradable"), ("keyboard", "non-biodegradable"),
    ("tv", "non-biodegradable"), ("remote", "non-biodegradable"), ("microwave", "non-biodegradable"),
    ("toaster", "non-biodegradable"), ("refrigerator", "non-biodegradable"), ("book", "biodegradable"),
    ("clock", "non-biodegradable"), ("vase", "non-biodegradable"), ("teddy bear", "non-biodegradable"),
    ("hair drier", "non-biodegradable"), ("toothbrush", "non-biodegradable"), ("chips packet", "non-biodegradable"),
    ("face mask", "non-biodegradable"), ("plastic straw", "non-biodegradable"), ("tin can", "non-biodegradable"),
    ("aluminum foil", "non-biodegradable"),
    ("shampoo bottle", "non-biodegradable"), ("detergent bottle", "non-biodegradable"),
    ("plastic toy", "non-biodegradable"),
    ("cd", "non-biodegradable"), ("battery", "non-biodegradable"), ("egg shell", "biodegradable"),
    ("tea bag", "biodegradable"), ("coffee grounds", "biodegradable"), ("vegetable peel", "biodegradable"),
    ("fruit peel", "biodegradable"),
    ("bread", "biodegradable"), ("tissue paper", "biodegradable"), ("flowers", "biodegradable"),
    ("leaf", "biodegradable"),
    ("paper", "biodegradable") ]

/-- The keys written in the table. -/
def wasteTypeKeys : List String := wasteTypeEntries.map Prod.fst

/-- The property names every plain object inherits from `Object.prototype`
(ECMAScript, including the Annex B accessors). -/
def objectPrototypeKeys : List String :=
  [ "constructor", "__proto__", "hasOwnProperty", "isPrototypeOf", "propertyIsEnumerable",
    "toLocaleString", "toString", "valueOf",
    "__defineGetter__", "__defineSetter__", "__lookupGetter__", "__lookupSetter__" ]

/-- The property read `wasteTypeMapping[key]`: an own property first, then the
prototype chain, else `undefined`. -/
def wasteTypeMapping (key : String) : JsValue :=
  match wasteTypeEntries.lookup key with
  | some v => .str v
  | none => if key ∈ objectPrototypeKeys then .builtin key else .undefined

/-! ## Data model -/

/-- Four numbers: a pixel box `(xmin, ymin, xmax, ymax)` on input, a percentage
box `(x, y, width, height)` on output. -/
structure Quad where
  a : ℚ
  b : ℚ
  c : ℚ
  d : ℚ
  deriving DecidableEq, Repr

/-- The two encodings of `d.box` in an inference response: the array
`[xmin, ymin, xmax, ymax]` or the object `{xmin, ymin, xmax, ymax}`. -/
inductive Box where
  | array (xmin ymin xmax ymax : ℚ)
  | object (xmin ymin xmax ymax : ℚ)
  deriving DecidableEq, Repr

/-- One entry of the inference response. -/
structure RawDetection where
  score : ℚ
  label : String
  box : Box
  deriving DecidableEq, Repr

/-- The object built by the `map` callback of `analyzeImage`. -/
structure Detection where
  name : String
  type : JsValue
  confidence : ℚ
  box : Quad
  deriving DecidableEq, Repr

/-- The decoded image: only its dimensions are read. -/
structure Image where
  width : ℕ
  height : ℕ
  deriving DecidableEq, Repr

/-- The body `response.data` of a resolved inference call: an error object
`{ error: msg }` or the array of detections. -/
inductive ResponseData where
  | error (msg : String)
  | detections (ds : List RawDetection)
  deriving DecidableEq, Repr

/-- Outcome of one `axios.post`: the promise rejects (network failure, timeout,
non-2xx status) or resolves with a body. -/
inductive PostOutcome where
  | rejected (e : JsError)
  | resolved (data : ResponseData)
  deriving DecidableEq, Repr

abbrev Bytes := List (Fin 256)

/-- One drawing call on the 2d context. -/
inductive DrawOp where
  | drawImage
  | strokeRect (strokeStyle : String) (lineWidth : ℕ) (x y w h : ℚ)
  | fillRect (fillStyle : String) (x y w h : ℚ)
  | fillText (fillStyle : String) (text : String) (x y : ℚ)
  deriving DecidableEq, Repr

/-- Everything outside the program that one request depends on. -/
structure World where
  /-- The method `String.prototype.toLowerCase`. -/
  toLowerCase : String → String
  /-- Outcome of `fs.readFileSync(imagePath)`. -/
  readFileSync : Except JsError Unit
  /-- Outcome of `loadImage(imagePath)`. -/
  loadImage : Except JsError Image
  /-- Outcome of the `k`-th `axios.post` of the request, counted from 0. -/
  post : ℕ → PostOutcome
  /-- The template string of the label, with `toFixed(1)`. -/
  formatLabel : Detection → String
  /-- The width `ctx.measureText(label).width`. -/
  measureText : String → ℚ
  /-- The encoder `canvas.toBuffer('image/jpeg')` on the drawn canvas. -/
  toBuffer : Image → List DrawOp → Bytes

/-- The `TypeError` thrown by calling a method a value does not have. -/
def typeError (message : String) : JsError :=
  { name := "TypeError", status := none, message := message }

/-! ## analyzeImage -/

/-- The method `Array.prototype.map` with a callback that may throw: the first
exception, in index order, aborts the whole call. -/
def mapThrowing {α β : Type} (f : α → Except JsError β) : List α → Except JsError (List β)
  | [] => .ok []
  | x :: xs =>
    match f x with
    | .error e => .error e
    | .ok y =>
      match mapThrowing f xs with
      | .error e => .error e
      | .ok ys => .ok (y :: ys)

/-- The destructuring `Array.isArray(box) ? box : [box.xmin, box.ymin, box.xmax, box.ymax]`. -/
def Box.corners : Box → Quad
  | .array xmin ymin xmax ymax => ⟨xmin, ymin, xmax, ymax⟩
  | .object xmin ymin xmax ymax => ⟨xmin, ymin, xmax, ymax⟩

/-- The `box` field of the returned object:
`[xmin / width * 100, ymin / height * 100, (xmax - xmin) / width * 100, (ymax - ymin) / height * 100]`. -/
def percentBox (image : Image) (box : Box) : Quad :=
  let q := box.corners
  ⟨q.a / image.width * 100, q.b / image.height * 100,
   (q.c - q.a) / image.width * 100, (q.d - q.b) / image.height * 100⟩

/-- The filter predicate `d => d.score > 0.5`. -/
def retained (d : RawDetection) : Bool := decide (d.score > 1 / 2)

namespace Api

/-- The `map` callback of `analyzeImage` in `src/api/index.js`. The call
`rawType.charAt(0)` throws when `rawType` is not a string. -/
def toDetection (w : World) (image : Image) (d : RawDetection) : Except JsError Detection :=
  let rawType := (wasteTypeMapping (w.toLowerCase d.label)).or (.str "non-biodegradable")
  match rawType with
  | .str s =>
    .ok { name := d.label, type := .str (capitalize s), confidence := d.score,
          box := percentBox image d.box }
  | _ => .error (typeError "rawType.charAt is not a function")

end Api

namespace Legacy

/-- The `map` callback of `analyzeImage` in `src/index.js`: the looked-up value
is stored as it is. -/
def toDetection (w : World) (image : Image) (d : RawDetection) : Except JsError Detection :=
  .ok { name := d.label,
        type := (wasteTypeMapping (w.toLowerCase d.label)).or (.str "non-biodegradable"),
        confidence := d.score,
        box := percentBox image d.box }

end Legacy

/-- The test `response.data.error && response.data.error.includes('loading')`
on an error body with message `msg`. -/
def loadingError (msg : String) : Bool :=
  msg != "" && includes msg "loading"

/-- The outcome of a post makes `analyzeImage` call itself again. -/
def PostOutcome.isLoading : PostOutcome → Bool
  | .resolved (.error msg) => loadingError msg
  | _ => false

/-- What one pass through the body of `analyzeImage` does after the post:
call itself again, or finish with a list or an exception. -/
inductive Attempt where
  | again
  | done (r : Except JsError (List Detection))

/-- The body of `analyzeImage` from the `loading` test to the `return`, for a
given `map` callback. On an error body that is not a `loading` one,
`response.data.filter` is not a function. -/
def afterPost (conv : World → Image → RawDetection → Except JsError Detection)
    (w : World) : PostOutcome → Attempt
  | .rejected e => .done (.error e)
  | .resolved (.error msg) =>
    if loadingError msg then .again
    else
      match w.loadImage with
      | .error e => .done (.error e)
      | .ok _ => .done (.error (typeError "response.data.filter is not a function"))
  | .resolved (.detections ds) =>
    match w.loadImage with
    | .error e => .done (.error e)
    | .ok image => .done (mapThrowing (conv w image) (ds.filter retained))

/-- The recursive function `analyzeImage`, with `fuel` bounding the number of
passes and `k` the number of posts already made. The result is the returned
list or the exception, with the total number of posts; `none` when the fuel
runs out first. -/
def analyzeImageWith (conv : World → Image → RawDetection → Except JsError Detection)
    (w : World) : (fuel : ℕ) → (k : ℕ) → Option (Except JsError (List Detection) × ℕ)
  | 0, _ => none
  | fuel + 1, k =>
    match w.readFileSync with
    | .error e => some (.error e, k)
    | .ok _ =>
      match afterPost conv w (w.post k) with
      | .again => analyzeImageWith conv w fuel (k + 1)
      | .done r => some (r, k + 1)

/-- The function `analyzeImage` of `src/api/index.js`. -/
def Api.analyzeImage (w : World) (fuel k : ℕ) : Option (Except JsError (List Detection) × ℕ) :=
  analyzeImageWith Api.toDetection w fuel k

/-- The function `analyzeImage` of `src/index.js`. -/
def Legacy.analyzeImage (w : World) (fuel k : ℕ) : Option (Except JsError (List Detection) × ℕ) :=
  analyzeImageWith Legacy.toDetection w fuel k

/-! ## annotateImageCanvas -/

/-- The body of the `forEach` callback of `annotateImageCanvas` (the same text
in both variants). -/
def drawDetection (w : World) (image : Image) (ann : Detection) : List DrawOp :=
  let x := ann.box.a / 100 * image.width
  let y := ann.box.b / 100 * image.height
  let wd := ann.box.c / 100 * image.width
  let h := ann.box.d / 100 * image.height
  let strokeStyle := if ann.type = .str "biodegradable" then "green" else "red"
  let label := w.formatLabel ann
  let textWidth := w.measureText label
  [ .strokeRect strokeStyle 5 x y wd h,
    .fillRect "white" x (y - 28) (textWidth + 10) 24,
    .fillText "black" label (x + 5) (y - 10) ]

/-- The drawing calls of `annotateImageCanvas`, in order. -/
def canvasOps (w : World) (image : Image) (annotations : List Detection) : List DrawOp :=
  .drawImage :: (annotations.map (drawDetection w image)).flatten

/-- The function `annotateImageCanvas` of `src/api/index.js`: the encoded
canvas, or the exception of `loadImage`. -/
def Api.annotateImageCanvas (w : World) (annotations : List Detection) : Except JsError Bytes :=
  match w.loadImage with
  | .error e => .error e
  | .ok image => .ok (w.toBuffer image (canvasOps w image annotations))

/-- The stroke colours of the rectangles among a list of drawing calls. -/
def strokeColours : List DrawOp → List String
  | [] => []
  | .strokeRect s _ _ _ _ _ :: ops => s :: strokeColours ops
  | _ :: ops => strokeColours ops

/-! ## The eco score -/

/-- The filter `annotations.filter(d => d.type === 'Biodegradable')`. -/
def biodegradable (annotations : List Detection) : List Detection :=
  annotations.filter (fun d => d.type = .str "Biodegradable")

/-- The filter `annotations.filter(d => d.type === 'Non-biodegradable')`. -/
def nonBiodegradable (annotations : List Detection) : List Detection :=
  annotations.filter (fun d => d.type = .str "Non-biodegradable")

/-- The quotient `biodegradable.length / total` of the `/upload` handler. -/
def bioRatio (annotations : List Detection) : ℚ :=
  ((biodegradable annotations).length : ℚ) / (annotations.length : ℚ)

/-- The grade computed by the `/upload` handler of `src/api/index.js`. The
literals 0.7 and 0.4 are the rationals 7/10 and 4/10: for a list of fewer than
2^32 entries the double quotient compares with the double literal as the exact
quotient compares with the exact fraction. -/
def ecoScore (annotations : List Detection) : String :=
  if bioRatio annotations ≥ 7 / 10 then "A"
  else if bioRatio annotations ≥ 4 / 10 then "B"
  else "C"

/-! ## The storage and database service -/

/-- What awaiting a call of the service client gives: the promise rejects, or
it resolves with the pair `{ data, error }`. -/
inductive Settled (α : Type) where
  | rejected (e : JsError)
  | resolved (data : Option α) (error : Option JsError)

/-- The calls the handlers make on the service client, over a service state
`σ`. Each call returns what the promise settles to and the state afterwards. -/
structure Supabase (σ : Type) where
  /-- The call `storage.from('annotated-images').upload(name, body, ...)`. -/
  storageUpload : String → Bytes → σ → Settled Unit × σ
  /-- The public URL `storage.from('annotated-images').getPublicUrl(name)`. -/
  getPublicUrl : String → String
  /-- The call `from('image_metadata').insert({ filename }).select('id').single()`. -/
  insertMetadata : String → σ → Settled ℕ × σ
  /-- The call `from('image_metadata').select('filename').eq('id', id).single()`. -/
  selectFilename : ℕ → σ → Settled String × σ
  /-- The call `storage.from('annotated-images').download(name)`. -/
  storageDownload : String → σ → Settled Bytes × σ
  /-- The call `storage.from('annotated-images').remove([name])`. -/
  storageRemove : String → σ → Settled Unit × σ
  /-- The call `from('image_metadata').delete().eq('id', id)`. -/
  deleteMetadata : ℕ → σ → Settled Unit × σ

/-- A model of the service: the blob store maps a file name to bytes, the
table `image_metadata` maps an id to a file name, and `nextId` is the id the
next inserted row gets. -/
structure Backend where
  blobs : String → Option Bytes
  rows : ℕ → Option String
  nextId : ℕ

/-- The service on the model state. An upload does not replace an existing
blob (no `upsert` option is passed), a lookup by id fails when there is no
row, a download fails when there is no blob. -/
def memory : Supabase Backend where
  storageUpload name body s :=
    match s.blobs name with
    | some _ =>
      (.resolved none (some ⟨"StorageApiError", some 409, "The resource already exists"⟩), s)
    | none =>
      (.resolved (some ()) none, { s with blobs := Function.update s.blobs name (some body) })
  getPublicUrl name := "/storage/v1/object/public/annotated-images/" ++ name
  insertMetadata name s :=
    (.resolved (some s.nextId) none,
     { s with rows := Function.update s.rows s.nextId (some name), nextId := s.nextId + 1 })
  selectFilename id s :=
    match s.rows id with
    | some name => (.resolved (some name) none, s)
    | none =>
      (.resolved none (some ⟨"PostgrestError", some 406, "JSON object requested, no rows returned"⟩), s)
  storageDownload name s :=
    match s.blobs name with
    | some body => (.resolved (some body) none, s)
    | none => (.resolved none (some ⟨"StorageApiError", some 404, "Object not found"⟩), s)
  storageRemove name s :=
    (.resolved (some ()) none, { s with blobs := Function.update s.blobs name none })
  deleteMetadata id s :=
    (.resolved (some ()) none, { s with rows := Function.update s.rows id none })

/-! ## HTTP handlers of `src/api/index.js` -/

/-- The object passed to `res.render('result.ejs', ...)`. -/
structure ResultLocals where
  imageUrl : String
  detections : List Detection
  imageId : ℕ
  biodegradable : List Detection
  nonBiodegradable : List Detection
  total : ℕ
  ecoScore : String
  timeTaken : ℚ
  detectedItems : List (String × ℚ × JsValue)

/-- The response a handler sends. -/
inductive Reply where
  /-- The call `res.status(status).json({ error: message })`. -/
  | jsonError (status : ℕ) (message : String)
  /-- The call `res.status(200).json({ success: true })`. -/
  | jsonSuccess
  /-- The call `res.status(status).send(text)`. -/
  | text (status : ℕ) (body : String)
  /-- The call `res.render(view, locals)`. -/
  | render (view : String) (locals : ResultLocals)
  /-- The call `res.json({ detections })`. -/
  | jsonDetections (detections : List Detection)
  /-- The two `setHeader` calls followed by `res.send(buffer)`. -/
  | file (contentType : String) (contentDisposition : String) (body : Bytes)

/-- The calls a handler makes outside itself, in order. -/
inductive Effect where
  | analyzeImage (posts : ℕ)
  | annotateImageCanvas
  | cleanFiles (path : String)
  | storageUpload (name : String) (body : Bytes)
  | getPublicUrl (name : String)
  | insertMetadata (name : String)
  | selectFilename (id : ℕ)
  | storageDownload (name : String)
  | storageRemove (name : String)
  | deleteMetadata (id : ℕ)
  deriving DecidableEq, Repr

/-- What `upload.single('image')` hands to the callback: an error with its
`code` and `message`, or the request with `req.file?.path`. -/
inductive MulterOutcome where
  | error (code : String) (message : String)
  | parsed (path : Option String)
  deriving DecidableEq, Repr

/-- The test `!originalPath`: the path is `undefined` or the empty string. -/
def missingPath : Option String → Bool
  | none => true
  | some p => p == ""

/-- The template string for the stored file name, with `now` the value of `Date.now()`. -/
def uniqueFilename (now : ℕ) : String :=
  "annotated_" ++ toString now ++ ".jpg"

namespace Api

/-- The `catch` block of the `/upload` handler, after `cleanFiles`. -/
def uploadCatch (error : JsError) : Reply :=
  if error.name = "StorageApiError" ∧
      (error.status = some 413 ∨ includes error.message "too large" = true) then
    .jsonError 400 "The uploaded file exceeds the 50 MB limit. Please try a smaller file."
  else
    .jsonError 500 error.message

/-- The `/upload` handler from the storage upload on, given the annotations
and the encoded canvas. -/
def uploadStore {σ : Type} (sb : Supabase σ) (path : String) (now : ℕ)
    (annotations : List Detection) (buffer : Bytes) (s : σ) : Reply × List Effect × σ :=
  let name := uniqueFilename now
  match sb.storageUpload name buffer s with
  | (.rejected e, s₁) =>
    (uploadCatch e, [.storageUpload name buffer, .cleanFiles path], s₁)
  | (.resolved _ (some e), s₁) =>
    (uploadCatch e, [.storageUpload name buffer, .cleanFiles path], s₁)
  | (.resolved _ none, s₁) =>
    let imageUrl := sb.getPublicUrl name
    match sb.insertMetadata name s₁ with
    | (.rejected e, s₂) =>
      (uploadCatch e,
       [.storageUpload name buffer, .getPublicUrl name, .insertMetadata name, .cleanFiles path], s₂)
    | (.resolved _ (some e), s₂) =>
      (uploadCatch e,
       [.storageUpload name buffer, .getPublicUrl name, .insertMetadata name, .cleanFiles path], s₂)
    | (.resolved none none, s₂) =>
      (uploadCatch (typeError "Cannot read properties of null (reading 'id')"),
       [.storageUpload name buffer, .getPublicUrl name, .insertMetadata name, .cleanFiles path,
        .cleanFiles path], s₂)
    | (.resolved (some id) none, s₂) =>
      (.render "result.ejs"
        { imageUrl := imageUrl
          detections := annotations
          imageId := id
          biodegradable := biodegradable annotations
          nonBiodegradable := nonBiodegradable annotations
          total := annotations.length
          ecoScore := ecoScore annotations
          timeTaken := 23 / 10
          detectedItems := annotations.map (fun d => (d.name, d.confidence, d.type)) },
       [.storageUpload name buffer, .getPublicUrl name, .insertMetadata name, .cleanFiles path], s₂)

/-- The `/upload` handler. The result is the response, the outside calls made
and the service state afterwards; `none` when `analyzeImage` does not finish
within `fuel` passes. -/
def upload {σ : Type} (sb : Supabase σ) (w : World) (m : MulterOutcome) (now fuel : ℕ) (s : σ) :
    Option (Reply × List Effect × σ) :=
  match m with
  | .error code message =>
    if code = "LIMIT_FILE_SIZE" then
      some (.jsonError 400 "The uploaded file exceeds the 10 MB limit. Please try a smaller file.",
            [], s)
    else some (.jsonError 400 message, [], s)
  | .parsed originalPath =>
    if missingPath originalPath then some (.jsonError 400 "No file uploaded", [], s)
    else
      let path := originalPath.getD ""
      match Api.analyzeImage w fuel 0 with
      | none => none
      | some (.error e, n) => some (uploadCatch e, [.analyzeImage n, .cleanFiles path], s)
      | some (.ok annotations, n) =>
        if annotations.length = 0 then
          some (.text 200 "<h2>No objects found</h2>", [.analyzeImage n, .cleanFiles path], s)
        else
          match Api.annotateImageCanvas w annotations with
          | .error e =>
            some (uploadCatch e, [.analyzeImage n, .annotateImageCanvas, .cleanFiles path], s)
          | .ok buffer =>
            let (reply, effects, s') := uploadStore sb path now annotations buffer s
            some (reply, .analyzeImage n :: .annotateImageCanvas :: effects, s')

/-- The `/analyze` handler. -/
def analyze (w : World) (m : MulterOutcome) (fuel : ℕ) : Option (Reply × List Effect) :=
  match m with
  | .error _ message => some (.jsonError 400 message, [])
  | .parsed originalPath =>
    if missingPath originalPath then some (.jsonError 400 "No file uploaded", [])
    else
      let path := originalPath.getD ""
      match Api.analyzeImage w fuel 0 with
      | none => none
      | some (.error e, n) => some (.jsonError 500 e.message, [.analyzeImage n, .cleanFiles path])
      | some (.ok annotations, n) =>
        some (.jsonDetections annotations, [.analyzeImage n, .cleanFiles path])

/-- The `/download/:imageId` handler. -/
def download {σ : Type} (sb : Supabase σ) (imageId : ℕ) (s : σ) : Reply × List Effect × σ :=
  match sb.selectFilename imageId s with
  | (.rejected _, s₁) => (.text 500 "Server error during download", [.selectFilename imageId], s₁)
  | (.resolved _ (some _), s₁) => (.text 404 "Image not found", [.selectFilename imageId], s₁)
  | (.resolved none none, s₁) => (.text 404 "Image not found", [.selectFilename imageId], s₁)
  | (.resolved (some filename) none, s₁) =>
    match sb.storageDownload filename s₁ with
    | (.rejected _, s₂) =>
      (.text 500 "Server error during download",
       [.selectFilename imageId, .storageDownload filename], s₂)
    | (.resolved _ (some _), s₂) =>
      (.text 500 "Error downloading image",
       [.selectFilename imageId, .storageDownload filename], s₂)
    | (.resolved none none, s₂) =>
      (.text 500 "Server error during download",
       [.selectFilename imageId, .storageDownload filename], s₂)
    | (.resolved (some buffer) none, s₂) =>
      (.file "image/jpeg" ("attachment; filename=\"" ++ filename ++ "\"") buffer,
       [.selectFilename imageId, .storageDownload filename], s₂)

/-- The `/delete-image` handler. -/
def deleteImage {σ : Type} (sb : Supabase σ) (imageId : ℕ) (s : σ) : Reply × List Effect × σ :=
  match sb.selectFilename imageId s with
  | (.rejected e, s₁) => (.jsonError 500 e.message, [.selectFilename imageId], s₁)
  | (.resolved _ (some _), s₁) =>
    (.jsonError 500 "Metadata not found", [.selectFilename imageId], s₁)
  | (.resolved none none, s₁) =>
    (.jsonError 500 "Metadata not found", [.selectFilename imageId], s₁)
  | (.resolved (some filename) none, s₁) =>
    match sb.storageRemove filename s₁ with
    | (.rejected e, s₂) =>
      (.jsonError 500 e.message, [.selectFilename imageId, .storageRemove filename], s₂)
    | (.resolved _ (some e), s₂) =>
      (.jsonError 500 e.message, [.selectFilename imageId, .storageRemove filename], s₂)
    | (.resolved _ none, s₂) =>
      match sb.deleteMetadata imageId s₂ with
      | (.rejected e, s₃) =>
        (.jsonError 500 e.message,
         [.selectFilename imageId, .storageRemove filename, .deleteMetadata imageId], s₃)
      | (.resolved _ (some e), s₃) =>
        (.jsonError 500 e.message,
         [.selectFilename imageId, .storageRemove filename, .deleteMetadata imageId], s₃)
      | (.resolved _ none, s₃) =>
        (.jsonSuccess,
         [.selectFilename imageId, .storageRemove filename, .deleteMetadata imageId], s₃)

end Api

/-! ## Concrete inputs -/

/-- A world in which the file reads, the image is 200 x 100 and every post
answers with the given body. -/
def worldOf (data : ResponseData) : World :=
  { toLowerCase := asciiLower
    readFileSync := .ok ()
    loadImage := .ok ⟨200, 100⟩
    post := fun _ => .resolved data
    formatLabel := fun ann => ann.name
    measureText := fun s => s.length
    toBuffer := fun _ ops => List.replicate ops.length 0 }

/-- A world whose first two posts answer that the model is loading and whose
later posts answer with an empty list. -/
def loadingTwice : World :=
  { worldOf (.detections []) with
    post := fun k =>
      if k < 2 then .resolved (.error "Model facebook/detr-resnet-101 is currently loading")
      else .resolved (.detections []) }

/-- The service state with no blob and no row. -/
def emptyBackend : Backend :=
  { blobs := fun _ => none, rows := fun _ => none, nextId := 1 }

/-- The list `analyzeImage` of `src/api/index.js` returns for banana (0.9),
bottle (0.5), cup (0.6) on a 200 x 100 image. -/
def sampleDetections : List Detection :=
  [{ name := "banana", type := .str "Biodegradable", confidence := 9 / 10,
     box := ⟨10, 10, 50, 50⟩ },
   { name := "Cup", type := .str "Non-biodegradable", confidence := 3 / 5,
     box := ⟨50, 50, 50, 50⟩ }]

def rawBanana : RawDetection := ⟨9 / 10, "banana", .array 20 10 120 60⟩
def rawBottle : RawDetection := ⟨1 / 2, "bottle", .array 0 0 50 50⟩
def rawCup : RawDetection := ⟨3 / 5, "Cup", .object 100 50 200 100⟩
def rawUnknown : RawDetection := ⟨4 / 5, "giraffe", .array 0 0 10 10⟩
def rawConstructor : RawDetection := ⟨9 / 10, "constructor", .array 0 0 10 10⟩

/-- The three-entry response used in the examples, in a world of its own. -/
def sampleWorld : World :=
  worldOf (.detections [rawBanana, rawBottle, rawCup])

/-- The bytes `annotateImageCanvas` produces in `sampleWorld`. -/
def sampleBuffer : Bytes :=
  sampleWorld.toBuffer ⟨200, 100⟩ (canvasOps sampleWorld ⟨200, 100⟩ sampleDetections)

/-- The service state after the sample upload at time 1700000000000. -/
def sampleBackend : Backend :=
  { blobs := Function.update emptyBackend.blobs (uniqueFilename 1700000000000) (some sampleBuffer)
    rows := Function.update emptyBackend.rows 1 (some (uniqueFilename 1700000000000))
    nextId := 2 }

/-- The locals rendered by the sample upload. -/
def sampleLocals : ResultLocals :=
  { imageUrl := memory.getPublicUrl (uniqueFilename 1700000000000)
    detections := sampleDetections
    imageId := 1
    biodegradable := biodegradable sampleDetections
    nonBiodegradable := nonBiodegradable sampleDetections
    total := 2
    ecoScore := ecoScore sampleDetections
    timeTaken := 23 / 10
    detectedItems := sampleDetections.map (fun d => (d.name, d.confidence, d.type)) }

/-! ## General facts about the embedding -/

theorem mapThrowing_ok_forall₂ {α β : Type} (f : α → Except JsError β) :
    ∀ (xs : List α) (ys : List β), mapThrowing f xs = .ok ys →
      List.Forall₂ (fun x y => f x = .ok y) xs ys := by
  intro xs
  induction xs with
  | nil =>
    intro ys h
    simp only [mapThrowing, Except.ok.injEq] at h
    subst h
    exact List.Forall₂.nil
  | cons x xs ih =>
    intro ys h
    simp only [mapThrowing] at h
    cases hx : f x with
    | error e => simp [hx] at h
    | ok y =>
      cases hxs : mapThrowing f xs with
      | error e => simp [hx, hxs] at h
      | ok zs =>
        simp only [hx, hxs, Except.ok.injEq] at h
        subst h
        exact List.Forall₂.cons hx (ih zs hxs)

theorem mapThrowing_total {α β : Type} (f : α → Except JsError β) (g : α → β) :
    ∀ (xs : List α), (∀ x ∈ xs, f x = .ok (g x)) → mapThrowing f xs = .ok (xs.map g) := by
  intro xs
  induction xs with
  | nil => intro _; rfl
  | cons x xs ih =>
    intro h
    have hx := h x (List.mem_cons_self x xs)
    have hxs := ih (fun y hy => h y (List.mem_cons_of_mem x hy))
    simp [mapThrowing, hx, hxs]

theorem analyzeImageWith_detections
    (conv : World → Image → RawDetection → Except JsError Detection)
    (w : World) (image : Image) (ds : List RawDetection) (fuel k : ℕ)
    (hread : w.readFileSync = .ok ()) (hload : w.loadImage = .ok image)
    (hpost : w.post k = .resolved (.detections ds)) :
    analyzeImageWith conv w (fuel + 1) k
      = some (mapThrowing (conv w image) (ds.filter retained), k + 1) := by
  simp [analyzeImageWith, afterPost, hread, hload, hpost]

theorem retained_iff (d : RawDetection) : retained d = true ↔ d.score > 1 / 2 := by
  simp [retained]

set_option maxRecDepth 20000 in
theorem wasteTypeEntries_values :
    ∀ p ∈ wasteTypeEntries, p.2 = "biodegradable" ∨ p.2 = "non-biodegradable" := by
  decide

/-- A property read on the table yields one of three things: a table value for
a written key, the inherited member for an inherited name, `undefined`
otherwise. -/
theorem wasteTypeMapping_cases (key : String) :
    (key ∈ wasteTypeKeys ∧
      (wasteTypeMapping key = .str "biodegradable" ∨
        wasteTypeMapping key = .str "non-biodegradable")) ∨
    (key ∉ wasteTypeKeys ∧ key ∈ objectPrototypeKeys ∧ wasteTypeMapping key = .builtin key) ∨
    (key ∉ wasteTypeKeys ∧ key ∉ objectPrototypeKeys ∧ wasteTypeMapping key = .undefined) := by
  cases hl : wasteTypeEntries.lookup key with
  | some v =>
    left
    obtain ⟨l₁, l₂, hsplit, -⟩ := List.lookup_eq_some_iff.mp hl
    have hmem : (key, v) ∈ wasteTypeEntries := by
      rw [hsplit]; simp
    refine ⟨?_, ?_⟩
    · exact List.mem_map.mpr ⟨(key, v), hmem, rfl⟩
    · have hv := wasteTypeEntries_values (key, v) hmem
      simp only [wasteTypeMapping, hl]
      rcases hv with hv | hv
      · left; simpa using hv
      · right; simpa using hv
  | none =>
    right
    have hnot : key ∉ wasteTypeKeys := by
      intro hk
      obtain ⟨p, hp, hpk⟩ := List.mem_map.mp hk
      have := List.lookup_eq_none_iff.mp hl p hp
      simp [hpk] at this
    by_cases hproto : key ∈ objectPrototypeKeys
    · left
      exact ⟨hnot, hproto, by simp [wasteTypeMapping, hl, hproto]⟩
    · right
      exact ⟨hnot, hproto, by simp [wasteTypeMapping, hl, hproto]⟩

/-- The expression `wasteTypeMapping[key] || 'non-biodegradable'`. -/
theorem rawType_cases (key : String) :
    (key ∈ wasteTypeKeys ∧
      ((wasteTypeMapping key).or (.str "non-biodegradable") = .str "biodegradable" ∨
        (wasteTypeMapping key).or (.str "non-biodegradable") = .str "non-biodegradable")) ∨
    (key ∉ wasteTypeKeys ∧ key ∈ objectPrototypeKeys ∧
      (wasteTypeMapping key).or (.str "non-biodegradable") = .builtin key) ∨
    (key ∉ wasteTypeKeys ∧ key ∉ objectPrototypeKeys ∧
      (wasteTypeMapping key).or (.str "non-biodegradable") = .str "non-biodegradable") := by
  rcases wasteTypeMapping_cases key with ⟨hk, h | h⟩ | ⟨hk, hp, h⟩ | ⟨hk, hp, h⟩
  · left; exact ⟨hk, Or.inl (by rw [h]; decide)⟩
  · left; exact ⟨hk, Or.inr (by rw [h]; decide)⟩
  · right; left; exact ⟨hk, hp, by rw [h]; rfl⟩
  · right; right; exact ⟨hk, hp, by rw [h]; rfl⟩

theorem capitalize_biodegradable : capitalize "biodegradable" = "Biodegradable" := by decide

theorem capitalize_non_biodegradable :
    capitalize "non-biodegradable" = "Non-biodegradable" := by decide

/-- The callback of `src/api/index.js` either throws, exactly on an inherited
name that is not a written key, or returns the annotation with a normalised
type string. -/
theorem api_toDetection_cases (w : World) (image : Image) (d : RawDetection) :
    ((w.toLowerCase d.label ∉ wasteTypeKeys ∧ w.toLowerCase d.label ∈ objectPrototypeKeys) ∧
      Api.toDetection w image d = .error (typeError "rawType.charAt is not a function")) ∨
    (¬(w.toLowerCase d.label ∉ wasteTypeKeys ∧ w.toLowerCase d.label ∈ objectPrototypeKeys) ∧
      ∃ t, (t = "Biodegradable" ∨ t = "Non-biodegradable") ∧
        (w.toLowerCase d.label ∉ wasteTypeKeys → t = "Non-biodegradable") ∧
        Api.toDetection w image d
          = .ok { name := d.label, type := .str t, confidence := d.score,
                  box := percentBox image d.box }) := by
  rcases rawType_cases (w.toLowerCase d.label) with ⟨hk, h | h⟩ | ⟨hk, hp, h⟩ | ⟨hk, hp, h⟩
  · right
    refine ⟨fun hc => hc.1 hk, "Biodegradable", Or.inl rfl, fun hn => absurd hk hn, ?_⟩
    simp only [Api.toDetection, h, capitalize_biodegradable]
  · right
    refine ⟨fun hc => hc.1 hk, "Non-biodegradable", Or.inr rfl, fun _ => rfl, ?_⟩
    simp only [Api.toDetection, h, capitalize_non_biodegradable]
  · left
    refine ⟨⟨hk, hp⟩, ?_⟩
    simp only [Api.toDetection, h]
  · right
    refine ⟨fun hc => hp hc.2, "Non-biodegradable", Or.inr rfl, fun _ => rfl, ?_⟩
    simp only [Api.toDetection, h, capitalize_non_biodegradable]

theorem mapThrowing_ok_of_forall {α β : Type} (f : α → Except JsError β) :
    ∀ (xs : List α), (∀ x ∈ xs, ∃ y, f x = .ok y) → ∃ ys, mapThrowing f xs = .ok ys := by
  intro xs
  induction xs with
  | nil => intro _; exact ⟨[], rfl⟩
  | cons x xs ih =>
    intro h
    obtain ⟨y, hy⟩ := h x (List.mem_cons_self x xs)
    obtain ⟨ys, hys⟩ := ih (fun z hz => h z (List.mem_cons_of_mem x hz))
    exact ⟨y :: ys, by simp [mapThrowing, hy, hys]⟩

theorem forall₂_right_mem {α β : Type} {R : α → β → Prop} :
    ∀ {xs : List α} {ys : List β}, List.Forall₂ R xs ys → ∀ y ∈ ys, ∃ x ∈ xs, R x y := by
  intro xs ys h
  induction h with
  | nil => intro y hy; simp at hy
  | cons hxy _ ih =>
    intro y hy
    rcases List.mem_cons.mp hy with rfl | hy
    · exact ⟨_, List.mem_cons_self _ _, hxy⟩
    · obtain ⟨x, hx, hr⟩ := ih y hy
      exact ⟨x, List.mem_cons_of_mem _ hx, hr⟩

theorem api_toDetection_fields (w : World) (image : Image) (d : RawDetection) (a : Detection)
    (h : Api.toDetection w image d = .ok a) :
    a.name = d.label ∧ a.confidence = d.score ∧ a.box = percentBox image d.box ∧
      (a.type = .str "Biodegradable" ∨ a.type = .str "Non-biodegradable") ∧
      (w.toLowerCase d.label ∉ wasteTypeKeys → a.type = .str "Non-biodegradable") := by
  rcases api_toDetection_cases w image d with ⟨-, he⟩ | ⟨-, t, ht, hdef, hok⟩
  · rw [he] at h; cases h
  · rw [hok] at h
    cases h
    refine ⟨rfl, rfl, rfl, ?_, ?_⟩
    · rcases ht with rfl | rfl
      · exact Or.inl rfl
      · exact Or.inr rfl
    · intro hn; rw [hdef hn]

theorem retained_filter (raws : List RawDetection) :
    raws.filter retained = raws.filter (fun d => d.score > 1 / 2) := rfl

/-! ## C1: the confidence filter -/

/-- C1: when the inference response is a list of raw detections, `analyzeImage`
(both variants) makes one post and finishes; the list it returns corresponds
one to one and in order to the raw detections with score above 0.5 (name,
confidence and box of each entry come from its raw detection), so nothing comes
from a detection with score at most 0.5 and every returned confidence is above
0.5. In `src/index.js` the list is always returned; in `src/api/index.js` it is
returned whenever no retained label lower-cases to an inherited property name. -/
theorem analyzeImage_keeps_exactly_scores_above_half
    (w : World) (image : Image) (raws : List RawDetection) (fuel : ℕ)
    (hread : w.readFileSync = .ok ()) (hload : w.loadImage = .ok image)
    (hpost : w.post 0 = .resolved (.detections raws)) :
    (∃ r, Api.analyzeImage w (fuel + 1) 0 = some (r, 1) ∧
      ((∀ d ∈ raws, d.score > 1 / 2 →
          ¬(w.toLowerCase d.label ∉ wasteTypeKeys ∧ w.toLowerCase d.label ∈ objectPrototypeKeys)) →
        ∃ out, r = .ok out) ∧
      ∀ out, r = .ok out →
        List.Forall₂
          (fun d a => a.name = d.label ∧ a.confidence = d.score ∧ a.box = percentBox image d.box)
          (raws.filter (fun d => d.score > 1 / 2)) out ∧
        (∀ a ∈ out, a.confidence > 1 / 2) ∧
        out.length = raws.countP (fun d => d.score > 1 / 2)) ∧
    (∃ out, Legacy.analyzeImage w (fuel + 1) 0 = some (.ok out, 1) ∧
      List.Forall₂
        (fun d a => a.name = d.label ∧ a.confidence = d.score ∧ a.box = percentBox image d.box)
        (raws.filter (fun d => d.score > 1 / 2)) out ∧
      (∀ a ∈ out, a.confidence > 1 / 2) ∧
      out.length = raws.countP (fun d => d.score > 1 / 2)) := by
  have key : ∀ (conv : World → Image → RawDetection → Except JsError Detection)
      (_ : ∀ d a, conv w image d = .ok a →
        a.name = d.label ∧ a.confidence = d.score ∧ a.box = percentBox image d.box)
      (out : List Detection),
      mapThrowing (conv w image) (raws.filter retained) = .ok out →
      List.Forall₂
        (fun d a => a.name = d.label ∧ a.confidence = d.score ∧ a.box = percentBox image d.box)
        (raws.filter (fun d => d.score > 1 / 2)) out ∧
      (∀ a ∈ out, a.confidence > 1 / 2) ∧
      out.length = raws.countP (fun d => d.score > 1 / 2) := by
    intro conv hconv out hout
    have h2 := mapThrowing_ok_forall₂ (conv w image) _ out hout
    rw [retained_filter] at h2
    have h3 : List.Forall₂
        (fun d a => a.name = d.label ∧ a.confidence = d.score ∧ a.box = percentBox image d.box)
        (raws.filter (fun d => d.score > 1 / 2)) out :=
      h2.imp (fun {d a} h => hconv d a h)
    refine ⟨h3, ?_, ?_⟩
    · intro a ha
      obtain ⟨d, hd, -, hc, -⟩ := forall₂_right_mem h3 a ha
      have := (List.mem_filter.mp hd).2
      rw [hc]
      simpa using this
    · rw [← h3.length_eq, List.countP_eq_length_filter]
  constructor
  · refine ⟨mapThrowing (Api.toDetection w image) (raws.filter retained), ?_, ?_, ?_⟩
    · exact analyzeImageWith_detections Api.toDetection w image raws fuel 0 hread hload hpost
    · intro hsafe
      apply mapThrowing_ok_of_forall
      intro d hd
      have hd' := List.mem_filter.mp hd
      have hs : d.score > 1 / 2 := (retained_iff d).mp hd'.2
      rcases api_toDetection_cases w image d with ⟨hbad, -⟩ | ⟨-, t, -, -, hok⟩
      · exact absurd hbad (hsafe d hd'.1 hs)
      · exact ⟨_, hok⟩
    · intro out hout
      exact key Api.toDetection
        (fun d a h => by
          obtain ⟨h1, h2, h3, -⟩ := api_toDetection_fields w image d a h
          exact ⟨h1, h2, h3⟩) out hout
  · have htot : mapThrowing (Legacy.toDetection w image) (raws.filter retained)
        = .ok ((raws.filter retained).map (fun d =>
            { name := d.label,
              type := (wasteTypeMapping (w.toLowerCase d.label)).or (.str "non-biodegradable"),
              confidence := d.score,
              box := percentBox image d.box })) :=
      mapThrowing_total _ _ _ (fun d _ => rfl)
    refine ⟨_, ?_, key Legacy.toDetection
        (fun d a h => by
          simp only [Legacy.toDetection, Except.ok.injEq] at h
          subst h
          exact ⟨rfl, rfl, rfl⟩) _ htot⟩
    have := analyzeImageWith_detections Legacy.toDetection w image raws fuel 0 hread hload hpost
    rw [htot] at this
    exact this

/-- C1 at a concrete response: banana (0.9), bottle (exactly 0.5), cup (0.6). -/
theorem analyzeImage_keeps_exactly_scores_above_half_witness :
    (∃ r, Api.analyzeImage (worldOf (.detections [rawBanana, rawBottle, rawCup])) 1 0
        = some (r, 1) ∧
      ((∀ d ∈ [rawBanana, rawBottle, rawCup], d.score > 1 / 2 →
          ¬(asciiLower d.label ∉ wasteTypeKeys ∧ asciiLower d.label ∈ objectPrototypeKeys)) →
        ∃ out, r = .ok out) ∧
      ∀ out, r = .ok out →
        List.Forall₂
          (fun d a => a.name = d.label ∧ a.confidence = d.score ∧
            a.box = percentBox ⟨200, 100⟩ d.box)
          ([rawBanana, rawBottle, rawCup].filter (fun d => d.score > 1 / 2)) out ∧
        (∀ a ∈ out, a.confidence > 1 / 2) ∧
        out.length = [rawBanana, rawBottle, rawCup].countP (fun d => d.score > 1 / 2)) ∧
    (∃ out, Legacy.analyzeImage (worldOf (.detections [rawBanana, rawBottle, rawCup])) 1 0
        = some (.ok out, 1) ∧
      List.Forall₂
        (fun d a => a.name = d.label ∧ a.confidence = d.score ∧
          a.box = percentBox ⟨200, 100⟩ d.box)
        ([rawBanana, rawBottle, rawCup].filter (fun d => d.score > 1 / 2)) out ∧
      (∀ a ∈ out, a.confidence > 1 / 2) ∧
      out.length = [rawBanana, rawBottle, rawCup].countP (fun d => d.score > 1 / 2)) :=
  analyzeImage_keeps_exactly_scores_above_half
    (worldOf (.detections [rawBanana, rawBottle, rawCup])) ⟨200, 100⟩
    [rawBanana, rawBottle, rawCup] 0 rfl rfl rfl

/-! ## C2: labels that are not in the table -/

theorem retained_rawConstructor : retained rawConstructor = true := by
  simp only [retained, rawConstructor, decide_eq_true_eq]
  norm_num

theorem retained_rawBanana : retained rawBanana = true := by
  simp only [retained, rawBanana, decide_eq_true_eq]
  norm_num

theorem retained_rawCup : retained rawCup = true := by
  simp only [retained, rawCup, decide_eq_true_eq]
  norm_num

theorem retained_rawBottle : retained rawBottle = false := by
  simp only [retained, rawBottle, decide_eq_false_iff_not]
  norm_num

/-- A label that lower-cases to neither a written key nor an inherited name gets
the default: `Non-biodegradable` in `src/api/index.js`, `non-biodegradable` in
`src/index.js`. -/
theorem unknown_label_defaults (w : World) (image : Image) (d : RawDetection)
    (hkey : w.toLowerCase d.label ∉ wasteTypeKeys)
    (hproto : w.toLowerCase d.label ∉ objectPrototypeKeys) :
    Api.toDetection w image d
      = .ok { name := d.label, type := .str "Non-biodegradable", confidence := d.score,
              box := percentBox image d.box } ∧
    Legacy.toDetection w image d
      = .ok { name := d.label, type := .str "non-biodegradable", confidence := d.score,
              box := percentBox image d.box } := by
  rcases rawType_cases (w.toLowerCase d.label) with ⟨hk, -⟩ | ⟨-, hp, -⟩ | ⟨-, -, h⟩
  · exact absurd hk hkey
  · exact absurd hp hproto
  · constructor
    · simp only [Api.toDetection, h, capitalize_non_biodegradable]
    · simp only [Legacy.toDetection, h]

/-- C2, at the failing input: the label `constructor` is not a key written in
the table and its score 0.9 is above 0.5, yet `analyzeImage` of
`src/api/index.js` ends with a `TypeError` instead of a list, and `analyzeImage`
of `src/index.js` returns a detection whose type is the inherited member
`Object`, not the string `non-biodegradable`. -/
theorem analyzeImage_constructor_label :
    asciiLower rawConstructor.label ∉ wasteTypeKeys ∧
    rawConstructor.score > 1 / 2 ∧
    Api.analyzeImage (worldOf (.detections [rawConstructor])) 1 0
      = some (.error (typeError "rawType.charAt is not a function"), 1) ∧
    Legacy.analyzeImage (worldOf (.detections [rawConstructor])) 1 0
      = some (.ok [{ name := "constructor", type := .builtin "constructor",
                     confidence := 9 / 10, box := ⟨0, 0, 5, 10⟩ }], 1) := by
  refine ⟨by decide, by norm_num [rawConstructor], ?_, ?_⟩
  · rw [Api.analyzeImage, analyzeImageWith_detections Api.toDetection _ ⟨200, 100⟩
      [rawConstructor] 0 0 rfl rfl rfl]
    simp only [List.filter, retained_rawConstructor, mapThrowing]
    rfl
  · rw [Legacy.analyzeImage, analyzeImageWith_detections Legacy.toDetection _ ⟨200, 100⟩
      [rawConstructor] 0 0 rfl rfl rfl]
    simp only [List.filter, retained_rawConstructor, mapThrowing, Legacy.toDetection]
    have hbox : percentBox ⟨200, 100⟩ rawConstructor.box = ⟨0, 0, 5, 10⟩ := by
      simp only [percentBox, rawConstructor, Box.corners]
      norm_num
    have htype : (wasteTypeMapping
        ((worldOf (.detections [rawConstructor])).toLowerCase rawConstructor.label)).or
          (.str "non-biodegradable") = .builtin "constructor" := by decide
    rw [hbox, htype]
    rfl

/-! ## C4: the waste-type tag -/

/-- Whenever `analyzeImage` returns a list, the list is the mapped filter of a
response that was an array of detections. -/
theorem analyzeImageWith_ok
    (conv : World → Image → RawDetection → Except JsError Detection) (w : World) :
    ∀ (fuel k n : ℕ) (out : List Detection),
      analyzeImageWith conv w fuel k = some (.ok out, n) →
      ∃ (image : Image) (ds : List RawDetection), w.loadImage = .ok image ∧
        mapThrowing (conv w image) (ds.filter retained) = .ok out := by
  intro fuel
  induction fuel with
  | zero => intro k n out h; simp [analyzeImageWith] at h
  | succ fuel ih =>
    intro k n out h
    simp only [analyzeImageWith] at h
    cases hread : w.readFileSync with
    | error e => simp [hread] at h
    | ok u =>
      simp only [hread] at h
      cases hp : w.post k with
      | rejected e => simp [hp, afterPost] at h
      | resolved data =>
        cases data with
        | error msg =>
          by_cases hl : loadingError msg = true
          · simp only [hp, afterPost, hl, if_true] at h
            exact ih (k + 1) n out h
          · cases hload : w.loadImage with
            | error e => simp [hp, afterPost, hl, hload] at h
            | ok image => simp [hp, afterPost, hl, hload] at h
        | detections ds =>
          cases hload : w.loadImage with
          | error e => simp [hp, afterPost, hload] at h
          | ok image =>
            simp only [hp, afterPost, hload, Option.some.injEq, Prod.mk.injEq] at h
            exact ⟨image, ds, rfl, h.1⟩

theorem legacy_toDetection_type (w : World) (image : Image) (d : RawDetection) (a : Detection)
    (h : Legacy.toDetection w image d = .ok a) :
    a.name = d.label ∧
      (¬(w.toLowerCase d.label ∉ wasteTypeKeys ∧ w.toLowerCase d.label ∈ objectPrototypeKeys) →
        a.type = .str "biodegradable" ∨ a.type = .str "non-biodegradable") := by
  simp only [Legacy.toDetection, Except.ok.injEq] at h
  subst h
  refine ⟨rfl, fun hsafe => ?_⟩
  rcases rawType_cases (w.toLowerCase d.label) with ⟨-, h | h⟩ | ⟨hk, hp, -⟩ | ⟨-, -, h⟩
  · exact Or.inl h
  · exact Or.inr h
  · exact absurd ⟨hk, hp⟩ hsafe
  · exact Or.inr h

/-- C4, as the code has it: every detection returned by `analyzeImage` of
`src/api/index.js` carries a type that is exactly `Biodegradable` or
`Non-biodegradable`, for every sequence of responses and every label. In
`src/index.js` the casing is not normalised: every returned detection whose
name does not lower-case to an inherited property name carries `biodegradable`
or `non-biodegradable`. -/
theorem analyzeImage_type_tag (w : World) (fuel k n : ℕ) (out : List Detection) :
    (Api.analyzeImage w fuel k = some (.ok out, n) →
      ∀ a ∈ out, a.type = .str "Biodegradable" ∨ a.type = .str "Non-biodegradable") ∧
    (Legacy.analyzeImage w fuel k = some (.ok out, n) →
      ∀ a ∈ out,
        ¬(w.toLowerCase a.name ∉ wasteTypeKeys ∧ w.toLowerCase a.name ∈ objectPrototypeKeys) →
        a.type = .str "biodegradable" ∨ a.type = .str "non-biodegradable") := by
  constructor
  · intro h a ha
    obtain ⟨image, ds, -, hmap⟩ := analyzeImageWith_ok Api.toDetection w fuel k n out h
    obtain ⟨d, -, hd⟩ := forall₂_right_mem (mapThrowing_ok_forall₂ _ _ _ hmap) a ha
    exact (api_toDetection_fields w image d a hd).2.2.2.1
  · intro h a ha hsafe
    obtain ⟨image, ds, -, hmap⟩ := analyzeImageWith_ok Legacy.toDetection w fuel k n out h
    obtain ⟨d, -, hd⟩ := forall₂_right_mem (mapThrowing_ok_forall₂ _ _ _ hmap) a ha
    obtain ⟨hname, htype⟩ := legacy_toDetection_type w image d a hd
    rw [hname] at hsafe
    exact htype hsafe

theorem api_analyzeImage_banana_cup :
    Api.analyzeImage (worldOf (.detections [rawBanana, rawBottle, rawCup])) 1 0
      = some (.ok [{ name := "banana", type := .str "Biodegradable", confidence := 9 / 10,
                     box := ⟨10, 10, 50, 50⟩ },
                   { name := "Cup", type := .str "Non-biodegradable", confidence := 3 / 5,
                     box := ⟨50, 50, 50, 50⟩ }], 1) := by
  rw [Api.analyzeImage, analyzeImageWith_detections Api.toDetection _ ⟨200, 100⟩
    [rawBanana, rawBottle, rawCup] 0 0 rfl rfl rfl]
  simp only [List.filter, retained_rawBanana, retained_rawBottle, retained_rawCup]
  have h1 : Api.toDetection (worldOf (.detections [rawBanana, rawBottle, rawCup])) ⟨200, 100⟩
      rawBanana = .ok { name := "banana", type := .str "Biodegradable", confidence := 9 / 10,
                        box := ⟨10, 10, 50, 50⟩ } := by
    have hbox : percentBox ⟨200, 100⟩ rawBanana.box = ⟨10, 10, 50, 50⟩ := by
      simp only [percentBox, rawBanana, Box.corners]
      norm_num
    have hraw : (wasteTypeMapping
        ((worldOf (.detections [rawBanana, rawBottle, rawCup])).toLowerCase rawBanana.label)).or
          (.str "non-biodegradable") = .str "biodegradable" := by decide
    simp only [Api.toDetection, hraw, hbox, capitalize_biodegradable]
    rfl
  have h2 : Api.toDetection (worldOf (.detections [rawBanana, rawBottle, rawCup])) ⟨200, 100⟩
      rawCup = .ok { name := "Cup", type := .str "Non-biodegradable", confidence := 3 / 5,
                     box := ⟨50, 50, 50, 50⟩ } := by
    have hbox : percentBox ⟨200, 100⟩ rawCup.box = ⟨50, 50, 50, 50⟩ := by
      simp only [percentBox, rawCup, Box.corners]
      norm_num
    have hraw : (wasteTypeMapping
        ((worldOf (.detections [rawBanana, rawBottle, rawCup])).toLowerCase rawCup.label)).or
          (.str "non-biodegradable") = .str "non-biodegradable" := by decide
    simp only [Api.toDetection, hraw, hbox, capitalize_non_biodegradable]
    rfl
  simp only [mapThrowing, h1, h2]

theorem legacy_analyzeImage_banana_cup :
    Legacy.analyzeImage (worldOf (.detections [rawBanana, rawBottle, rawCup])) 1 0
      = some (.ok [{ name := "banana", type := .str "biodegradable", confidence := 9 / 10,
                     box := ⟨10, 10, 50, 50⟩ },
                   { name := "Cup", type := .str "non-biodegradable", confidence := 3 / 5,
                     box := ⟨50, 50, 50, 50⟩ }], 1) := by
  rw [Legacy.analyzeImage, analyzeImageWith_detections Legacy.toDetection _ ⟨200, 100⟩
    [rawBanana, rawBottle, rawCup] 0 0 rfl rfl rfl]
  simp only [List.filter, retained_rawBanana, retained_rawBottle, retained_rawCup]
  have h1 : Legacy.toDetection (worldOf (.detections [rawBanana, rawBottle, rawCup])) ⟨200, 100⟩
      rawBanana = .ok { name := "banana", type := .str "biodegradable", confidence := 9 / 10,
                        box := ⟨10, 10, 50, 50⟩ } := by
    have hbox : percentBox ⟨200, 100⟩ rawBanana.box = ⟨10, 10, 50, 50⟩ := by
      simp only [percentBox, rawBanana, Box.corners]
      norm_num
    have hraw : (wasteTypeMapping
        ((worldOf (.detections [rawBanana, rawBottle, rawCup])).toLowerCase rawBanana.label)).or
          (.str "non-biodegradable") = .str "biodegradable" := by decide
    simp only [Legacy.toDetection, hraw, hbox]
    rfl
  have h2 : Legacy.toDetection (worldOf (.detections [rawBanana, rawBottle, rawCup])) ⟨200, 100⟩
      rawCup = .ok { name := "Cup", type := .str "non-biodegradable", confidence := 3 / 5,
                     box := ⟨50, 50, 50, 50⟩ } := by
    have hbox : percentBox ⟨200, 100⟩ rawCup.box = ⟨50, 50, 50, 50⟩ := by
      simp only [percentBox, rawCup, Box.corners]
      norm_num
    have hraw : (wasteTypeMapping
        ((worldOf (.detections [rawBanana, rawBottle, rawCup])).toLowerCase rawCup.label)).or
          (.str "non-biodegradable") = .str "non-biodegradable" := by decide
    simp only [Legacy.toDetection, hraw, hbox]
    rfl
  simp only [mapThrowing, h1, h2]

/-- C4 fails as stated on `src/index.js`: for the response banana (0.9), bottle
(0.5), cup (0.6) the returned detections carry the lower-case strings
`biodegradable` and `non-biodegradable`, neither of which is `Biodegradable` or
`Non-biodegradable`. -/
theorem analyzeImage_type_tag_counterexample :
    ∃ out n,
      Legacy.analyzeImage (worldOf (.detections [rawBanana, rawBottle, rawCup])) 1 0
        = some (.ok out, n) ∧
      ¬(∀ a ∈ out, a.type = .str "Biodegradable" ∨ a.type = .str "Non-biodegradable") := by
  refine ⟨_, _, legacy_analyzeImage_banana_cup, ?_⟩
  intro h
  have := h { name := "banana", type := .str "biodegradable", confidence := 9 / 10,
              box := ⟨10, 10, 50, 50⟩ } (List.mem_cons_self _ _)
  revert this
  decide

/-- C4 at a concrete response: banana (0.9), bottle (0.5), cup (0.6). -/
theorem analyzeImage_type_tag_witness :
    (∀ a ∈ [({ name := "banana", type := .str "Biodegradable", confidence := 9 / 10,
               box := ⟨10, 10, 50, 50⟩ } : Detection),
            { name := "Cup", type := .str "Non-biodegradable", confidence := 3 / 5,
              box := ⟨50, 50, 50, 50⟩ }],
      a.type = .str "Biodegradable" ∨ a.type = .str "Non-biodegradable") :=
  (analyzeImage_type_tag (worldOf (.detections [rawBanana, rawBottle, rawCup])) 1 0 1 _).1
    api_analyzeImage_banana_cup

/-! ## C9: percentage boxes -/

theorem percentBox_formula (image : Image) (box : Box) (xmin ymin xmax ymax : ℚ)
    (henc : box = .array xmin ymin xmax ymax ∨ box = .object xmin ymin xmax ymax) :
    percentBox image box
      = ⟨100 * xmin / image.width, 100 * ymin / image.height,
         100 * (xmax - xmin) / image.width, 100 * (ymax - ymin) / image.height⟩ := by
  rcases henc with rfl | rfl <;>
    simp only [percentBox, Box.corners, Quad.mk.injEq] <;>
    refine ⟨?_, ?_, ?_, ?_⟩ <;> ring

theorem percent_bounds (p q W : ℚ) (hW : 0 < W) (h0 : 0 ≤ p) (hpq : p ≤ q) (hq : q ≤ W) :
    (0 ≤ 100 * p / W ∧ 100 * p / W ≤ 100) ∧
      (0 ≤ 100 * (q - p) / W ∧ 100 * (q - p) / W ≤ 100) := by
  have hp : p ≤ W := le_trans hpq hq
  refine ⟨⟨?_, ?_⟩, ?_, ?_⟩
  · exact div_nonneg (by linarith) hW.le
  · rw [div_le_iff₀ hW]; linarith
  · exact div_nonneg (by linarith) hW.le
  · rw [div_le_iff₀ hW]; linarith

/-- C9: when the response is a list of raw detections and the image has positive
width `W` and height `H`, `analyzeImage` makes one post and finishes, and the
list it yields pairs each retained raw detection, whether its box came as the
array `[xmin, ymin, xmax, ymax]` or as the object with the same four numbers,
with the box `[100*xmin/W, 100*ymin/H, 100*(xmax-xmin)/W, 100*(ymax-ymin)/H]`;
when `0 ≤ xmin ≤ xmax ≤ W` and `0 ≤ ymin ≤ ymax ≤ H` each of the four components
lies between 0 and 100. In `src/index.js` the list is always yielded; in
`src/api/index.js` it is yielded whenever no retained label lower-cases to an
inherited property name. -/
theorem analyzeImage_box_percentages
    (w : World) (image : Image) (raws : List RawDetection) (fuel : ℕ)
    (hread : w.readFileSync = .ok ()) (hload : w.loadImage = .ok image)
    (hpost : w.post 0 = .resolved (.detections raws))
    (hW : 0 < image.width) (hH : 0 < image.height) :
    (∃ r, Api.analyzeImage w (fuel + 1) 0 = some (r, 1) ∧
      ((∀ d ∈ raws, d.score > 1 / 2 →
          ¬(w.toLowerCase d.label ∉ wasteTypeKeys ∧ w.toLowerCase d.label ∈ objectPrototypeKeys)) →
        ∃ out, r = .ok out) ∧
      ∀ out, r = .ok out →
        List.Forall₂
          (fun d a => ∀ xmin ymin xmax ymax : ℚ,
            (d.box = .array xmin ymin xmax ymax ∨ d.box = .object xmin ymin xmax ymax) →
            a.box = ⟨100 * xmin / image.width, 100 * ymin / image.height,
                     100 * (xmax - xmin) / image.width, 100 * (ymax - ymin) / image.height⟩ ∧
            (0 ≤ xmin → xmin ≤ xmax → xmax ≤ image.width →
              0 ≤ ymin → ymin ≤ ymax → ymax ≤ image.height →
              (0 ≤ a.box.a ∧ a.box.a ≤ 100) ∧ (0 ≤ a.box.b ∧ a.box.b ≤ 100) ∧
              (0 ≤ a.box.c ∧ a.box.c ≤ 100) ∧ (0 ≤ a.box.d ∧ a.box.d ≤ 100)))
          (raws.filter (fun d => d.score > 1 / 2)) out) ∧
    (∃ out, Legacy.analyzeImage w (fuel + 1) 0 = some (.ok out, 1) ∧
      List.Forall₂
        (fun d a => ∀ xmin ymin xmax ymax : ℚ,
          (d.box = .array xmin ymin xmax ymax ∨ d.box = .object xmin ymin xmax ymax) →
          a.box = ⟨100 * xmin / image.width, 100 * ymin / image.height,
                   100 * (xmax - xmin) / image.width, 100 * (ymax - ymin) / image.height⟩ ∧
          (0 ≤ xmin → xmin ≤ xmax → xmax ≤ image.width →
            0 ≤ ymin → ymin ≤ ymax → ymax ≤ image.height →
            (0 ≤ a.box.a ∧ a.box.a ≤ 100) ∧ (0 ≤ a.box.b ∧ a.box.b ≤ 100) ∧
            (0 ≤ a.box.c ∧ a.box.c ≤ 100) ∧ (0 ≤ a.box.d ∧ a.box.d ≤ 100)))
        (raws.filter (fun d => d.score > 1 / 2)) out) := by
  have hWq : (0 : ℚ) < image.width := by exact_mod_cast hW
  have hHq : (0 : ℚ) < image.height := by exact_mod_cast hH
  have key : ∀ (conv : World → Image → RawDetection → Except JsError Detection)
      (_ : ∀ d a, conv w image d = .ok a → a.box = percentBox image d.box)
      (out : List Detection),
      mapThrowing (conv w image) (raws.filter retained) = .ok out →
      List.Forall₂
        (fun d a => ∀ xmin ymin xmax ymax : ℚ,
          (d.box = .array xmin ymin xmax ymax ∨ d.box = .object xmin ymin xmax ymax) →
          a.box = ⟨100 * xmin / image.width, 100 * ymin / image.height,
                   100 * (xmax - xmin) / image.width, 100 * (ymax - ymin) / image.height⟩ ∧
          (0 ≤ xmin → xmin ≤ xmax → xmax ≤ image.width →
            0 ≤ ymin → ymin ≤ ymax → ymax ≤ image.height →
            (0 ≤ a.box.a ∧ a.box.a ≤ 100) ∧ (0 ≤ a.box.b ∧ a.box.b ≤ 100) ∧
            (0 ≤ a.box.c ∧ a.box.c ≤ 100) ∧ (0 ≤ a.box.d ∧ a.box.d ≤ 100)))
        (raws.filter (fun d => d.score > 1 / 2)) out := by
    intro conv hconv out hout
    have h2 := mapThrowing_ok_forall₂ (conv w image) _ out hout
    rw [retained_filter] at h2
    refine h2.imp ?_
    intro d a hd xmin ymin xmax ymax henc
    have hbox := hconv d a hd
    have hform := percentBox_formula image d.box xmin ymin xmax ymax henc
    rw [hbox, hform]
    refine ⟨rfl, ?_⟩
    intro hx0 hx hxW hy0 hy hyH
    obtain ⟨hxa, hxc⟩ := percent_bounds xmin xmax image.width hWq hx0 hx hxW
    obtain ⟨hyb, hyd⟩ := percent_bounds ymin ymax image.height hHq hy0 hy hyH
    exact ⟨hxa, hyb, hxc, hyd⟩
  constructor
  · refine ⟨mapThrowing (Api.toDetection w image) (raws.filter retained), ?_, ?_, ?_⟩
    · exact analyzeImageWith_detections Api.toDetection w image raws fuel 0 hread hload hpost
    · intro hsafe
      apply mapThrowing_ok_of_forall
      intro d hd
      have hd' := List.mem_filter.mp hd
      have hs : d.score > 1 / 2 := (retained_iff d).mp hd'.2
      rcases api_toDetection_cases w image d with ⟨hbad, -⟩ | ⟨-, t, -, -, hok⟩
      · exact absurd hbad (hsafe d hd'.1 hs)
      · exact ⟨_, hok⟩
    · intro out hout
      exact key Api.toDetection
        (fun d a h => (api_toDetection_fields w image d a h).2.2.1) out hout
  · have htot : mapThrowing (Legacy.toDetection w image) (raws.filter retained)
        = .ok ((raws.filter retained).map (fun d =>
            { name := d.label,
              type := (wasteTypeMapping (w.toLowerCase d.label)).or (.str "non-biodegradable"),
              confidence := d.score,
              box := percentBox image d.box })) :=
      mapThrowing_total _ _ _ (fun d _ => rfl)
    refine ⟨_, ?_, key Legacy.toDetection
        (fun d a h => by
          simp only [Legacy.toDetection, Except.ok.injEq] at h
          subst h
          rfl) _ htot⟩
    have := analyzeImageWith_detections Legacy.toDetection w image raws fuel 0 hread hload hpost
    rw [htot] at this
    exact this

/-- C9 at a concrete response on a 200 x 100 image: banana with an array box,
bottle at exactly 0.5, cup with an object box. -/
theorem analyzeImage_box_percentages_witness :
    (∃ r, Api.analyzeImage (worldOf (.detections [rawBanana, rawBottle, rawCup])) 1 0
        = some (r, 1) ∧
      ((∀ d ∈ [rawBanana, rawBottle, rawCup], d.score > 1 / 2 →
          ¬(asciiLower d.label ∉ wasteTypeKeys ∧ asciiLower d.label ∈ objectPrototypeKeys)) →
        ∃ out, r = .ok out) ∧
      ∀ out, r = .ok out →
        List.Forall₂
          (fun (d : RawDetection) (a : Detection) => ∀ xmin ymin xmax ymax : ℚ,
            (d.box = .array xmin ymin xmax ymax ∨ d.box = .object xmin ymin xmax ymax) →
            a.box = ⟨100 * xmin / (200 : ℕ), 100 * ymin / (100 : ℕ),
                     100 * (xmax - xmin) / (200 : ℕ), 100 * (ymax - ymin) / (100 : ℕ)⟩ ∧
            (0 ≤ xmin → xmin ≤ xmax → xmax ≤ (200 : ℕ) →
              0 ≤ ymin → ymin ≤ ymax → ymax ≤ (100 : ℕ) →
              (0 ≤ a.box.a ∧ a.box.a ≤ 100) ∧ (0 ≤ a.box.b ∧ a.box.b ≤ 100) ∧
              (0 ≤ a.box.c ∧ a.box.c ≤ 100) ∧ (0 ≤ a.box.d ∧ a.box.d ≤ 100)))
          ([rawBanana, rawBottle, rawCup].filter (fun d => d.score > 1 / 2)) out) ∧
    (∃ out, Legacy.analyzeImage (worldOf (.detections [rawBanana, rawBottle, rawCup])) 1 0
        = some (.ok out, 1) ∧
      List.Forall₂
        (fun (d : RawDetection) (a : Detection) => ∀ xmin ymin xmax ymax : ℚ,
          (d.box = .array xmin ymin xmax ymax ∨ d.box = .object xmin ymin xmax ymax) →
          a.box = ⟨100 * xmin / (200 : ℕ), 100 * ymin / (100 : ℕ),
                   100 * (xmax - xmin) / (200 : ℕ), 100 * (ymax - ymin) / (100 : ℕ)⟩ ∧
          (0 ≤ xmin → xmin ≤ xmax → xmax ≤ (200 : ℕ) →
            0 ≤ ymin → ymin ≤ ymax → ymax ≤ (100 : ℕ) →
            (0 ≤ a.box.a ∧ a.box.a ≤ 100) ∧ (0 ≤ a.box.b ∧ a.box.b ≤ 100) ∧
            (0 ≤ a.box.c ∧ a.box.c ≤ 100) ∧ (0 ≤ a.box.d ∧ a.box.d ≤ 100)))
        ([rawBanana, rawBottle, rawCup].filter (fun d => d.score > 1 / 2)) out) :=
  analyzeImage_box_percentages (worldOf (.detections [rawBanana, rawBottle, rawCup]))
    ⟨200, 100⟩ [rawBanana, rawBottle, rawCup] 0 rfl rfl rfl (by decide) (by decide)

/-! ## C5: rectangle colours -/

/-- In `src/api/index.js` every rectangle is stroked in red: the types produced
by `analyzeImage` start with an upper-case letter and the colour test compares
with the lower-case string. -/
theorem api_strokes_all_red (w : World) (image : Image) :
    ∀ (out : List Detection),
      (∀ a ∈ out, a.type = .str "Biodegradable" ∨ a.type = .str "Non-biodegradable") →
      strokeColours (canvasOps w image out) = List.replicate out.length "red" := by
  intro out
  induction out with
  | nil => intro _; rfl
  | cons a out ih =>
    intro h
    have ha := h a (List.mem_cons_self a out)
    have ih' := ih (fun b hb => h b (List.mem_cons_of_mem a hb))
    have hne : ¬ a.type = .str "biodegradable" := by
      rcases ha with ha | ha <;> rw [ha] <;> decide
    simp only [canvasOps, strokeColours, List.map_cons, List.flatten_cons, drawDetection,
      List.cons_append, List.nil_append, hne, if_false, List.length_cons,
      List.replicate_succ, List.cons.injEq, true_and] at ih' ⊢
    exact ih'

/-- C5, at the failing input: for the response banana (0.9), bottle (0.5), cup
(0.6) `analyzeImage` of `src/api/index.js` returns banana, whose label maps to
`biodegradable` in the table, and cup; `annotateImageCanvas` strokes both
rectangles in red, where the claim has green for banana. On the list that
`analyzeImage` of `src/index.js` returns, the same drawing code strokes green
and red. -/
theorem annotateImageCanvas_banana_is_red :
    wasteTypeMapping "banana" = .str "biodegradable" ∧
    (∃ out,
      Api.analyzeImage (worldOf (.detections [rawBanana, rawBottle, rawCup])) 1 0
        = some (.ok out, 1) ∧
      out.map (fun a => a.name) = ["banana", "Cup"] ∧
      Api.annotateImageCanvas (worldOf (.detections [rawBanana, rawBottle, rawCup])) out
        = .ok ((worldOf (.detections [rawBanana, rawBottle, rawCup])).toBuffer ⟨200, 100⟩
            (canvasOps (worldOf (.detections [rawBanana, rawBottle, rawCup])) ⟨200, 100⟩ out)) ∧
      strokeColours
        (canvasOps (worldOf (.detections [rawBanana, rawBottle, rawCup])) ⟨200, 100⟩ out)
        = ["red", "red"]) ∧
    (∃ out,
      Legacy.analyzeImage (worldOf (.detections [rawBanana, rawBottle, rawCup])) 1 0
        = some (.ok out, 1) ∧
      strokeColours
        (canvasOps (worldOf (.detections [rawBanana, rawBottle, rawCup])) ⟨200, 100⟩ out)
        = ["green", "red"]) := by
  refine ⟨by decide, ⟨_, api_analyzeImage_banana_cup, rfl, rfl, ?_⟩,
    ⟨_, legacy_analyzeImage_banana_cup, ?_⟩⟩
  · rfl
  · rfl

/-! ## C3: the eco score -/

theorem bioRatio_eq (annotations : List Detection) :
    bioRatio annotations
      = (annotations.countP (fun d => d.type = .str "Biodegradable") : ℚ) / annotations.length := by
  simp only [bioRatio, biodegradable, List.countP_eq_length_filter]

/-- C3: for a non-empty detection list with `b` detections of type
`Biodegradable` out of `n`, the grade of the `/upload` handler is `A` exactly
when `b / n ≥ 0.7`, `B` exactly when `0.4 ≤ b / n < 0.7`, and `C` exactly when
`b / n < 0.4`; it is always one of the three, and the three are distinct. -/
theorem ecoScore_thresholds (annotations : List Detection) (hne : annotations ≠ []) :
    bioRatio annotations
      = (annotations.countP (fun d => d.type = .str "Biodegradable") : ℚ) / annotations.length ∧
    0 < annotations.length ∧
    (ecoScore annotations = "A" ↔ bioRatio annotations ≥ 7 / 10) ∧
    (ecoScore annotations = "B" ↔ 4 / 10 ≤ bioRatio annotations ∧ bioRatio annotations < 7 / 10) ∧
    (ecoScore annotations = "C" ↔ bioRatio annotations < 4 / 10) ∧
    (ecoScore annotations = "A" ∨ ecoScore annotations = "B" ∨ ecoScore annotations = "C") := by
  have hAB : ("A" : String) ≠ "B" := by decide
  have hAC : ("A" : String) ≠ "C" := by decide
  have hBC : ("B" : String) ≠ "C" := by decide
  refine ⟨bioRatio_eq annotations, List.length_pos.mpr hne, ?_, ?_, ?_, ?_⟩
  · unfold ecoScore
    by_cases h1 : bioRatio annotations ≥ 7 / 10
    · simp [h1]
    · by_cases h2 : bioRatio annotations ≥ 4 / 10
      · simp [h1, h2, hAB.symm]
      · simp [h1, h2, hAC.symm]
  · unfold ecoScore
    by_cases h1 : bioRatio annotations ≥ 7 / 10
    · simp only [h1, if_true]
      constructor
      · intro h; exact absurd h hAB
      · intro h; exact absurd h1 (not_le.mpr h.2)
    · by_cases h2 : bioRatio annotations ≥ 4 / 10
      · simp only [h1, h2, if_true, if_false, true_iff]
        exact ⟨trivial, not_le.mp h1⟩
      · simp only [h1, h2, if_false]
        constructor
        · intro h; exact absurd h.symm hBC
        · intro h; exact h.1.elim
  · unfold ecoScore
    by_cases h1 : bioRatio annotations ≥ 7 / 10
    · simp only [h1, if_true]
      constructor
      · intro h; exact absurd h hAC
      · intro h; exact absurd h1 (not_le.mpr (by linarith))
    · by_cases h2 : bioRatio annotations ≥ 4 / 10
      · simp only [h1, h2, if_true, if_false]
        constructor
        · intro h; exact absurd h hBC
        · intro h; exact absurd h2 (not_le.mpr h)
      · simp only [h1, h2, if_false, true_iff]
        exact not_le.mp h2
  · unfold ecoScore
    by_cases h1 : bioRatio annotations ≥ 7 / 10
    · simp [h1]
    · by_cases h2 : bioRatio annotations ≥ 4 / 10
      · simp [h1, h2]
      · simp [h1, h2]

/-- C3 at a concrete list: one `Biodegradable` detection out of two. -/
theorem ecoScore_thresholds_witness :
    bioRatio sampleDetections
      = (sampleDetections.countP (fun d => d.type = .str "Biodegradable") : ℚ)
          / sampleDetections.length ∧
    0 < sampleDetections.length ∧
    (ecoScore sampleDetections = "A" ↔ bioRatio sampleDetections ≥ 7 / 10) ∧
    (ecoScore sampleDetections = "B" ↔
      4 / 10 ≤ bioRatio sampleDetections ∧ bioRatio sampleDetections < 7 / 10) ∧
    (ecoScore sampleDetections = "C" ↔ bioRatio sampleDetections < 4 / 10) ∧
    (ecoScore sampleDetections = "A" ∨ ecoScore sampleDetections = "B" ∨
      ecoScore sampleDetections = "C") :=
  ecoScore_thresholds sampleDetections (List.cons_ne_nil _ _)

/-! ## C6: the retry loop -/

theorem afterPost_of_loading
    (conv : World → Image → RawDetection → Except JsError Detection) (w : World)
    (p : PostOutcome) (h : p.isLoading = true) : afterPost conv w p = .again := by
  cases p with
  | rejected e => simp [PostOutcome.isLoading] at h
  | resolved data =>
    cases data with
    | error msg =>
      simp only [PostOutcome.isLoading] at h
      simp [afterPost, h]
    | detections ds => simp [PostOutcome.isLoading] at h

theorem afterPost_of_not_loading
    (conv : World → Image → RawDetection → Except JsError Detection) (w : World)
    (p : PostOutcome) (h : p.isLoading = false) : ∃ r, afterPost conv w p = .done r := by
  cases p with
  | rejected e => exact ⟨_, rfl⟩
  | resolved data =>
    cases data with
    | error msg =>
      simp only [PostOutcome.isLoading] at h
      cases hload : w.loadImage with
      | error e => exact ⟨.error e, by simp [afterPost, h, hload]⟩
      | ok image =>
        exact ⟨.error (typeError "response.data.filter is not a function"),
          by simp [afterPost, h, hload]⟩
    | detections ds =>
      cases hload : w.loadImage with
      | error e => exact ⟨.error e, by simp [afterPost, hload]⟩
      | ok image =>
        exact ⟨mapThrowing (conv w image) (ds.filter retained), by simp [afterPost, hload]⟩

/-- While every answer is a `loading` error the function keeps calling itself:
no amount of fuel is enough. -/
theorem analyzeImageWith_all_loading
    (conv : World → Image → RawDetection → Except JsError Detection) (w : World)
    (hread : w.readFileSync = .ok ()) :
    ∀ (fuel k : ℕ), (∀ i, k ≤ i → i < k + fuel → (w.post i).isLoading = true) →
      analyzeImageWith conv w fuel k = none := by
  intro fuel
  induction fuel with
  | zero => intro k _; rfl
  | succ fuel ih =>
    intro k h
    have hk := h k (le_refl k) (by omega)
    simp only [analyzeImageWith, hread, afterPost_of_loading conv w _ hk]
    exact ih (k + 1) (fun i hi1 hi2 => h i (by omega) (by omega))

/-- After `j` `loading` answers followed by another answer, the function has
posted `j + 1` times and finishes. -/
theorem analyzeImageWith_after_loading
    (conv : World → Image → RawDetection → Except JsError Detection) (w : World)
    (hread : w.readFileSync = .ok ()) :
    ∀ (j fuel k : ℕ), j < fuel →
      (∀ i, k ≤ i → i < k + j → (w.post i).isLoading = true) →
      (w.post (k + j)).isLoading = false →
      ∃ r, analyzeImageWith conv w fuel k = some (r, k + j + 1) := by
  intro j
  induction j with
  | zero =>
    intro fuel k hfuel _ hlast
    obtain ⟨fuel', rfl⟩ : ∃ f, fuel = f + 1 := ⟨fuel - 1, by omega⟩
    obtain ⟨r, hr⟩ := afterPost_of_not_loading conv w _ hlast
    simp only [Nat.add_zero] at hr
    exact ⟨r, by simp only [analyzeImageWith, hread, hr, Nat.add_zero]⟩
  | succ j ih =>
    intro fuel k hfuel hpre hlast
    obtain ⟨fuel', rfl⟩ : ∃ f, fuel = f + 1 := ⟨fuel - 1, by omega⟩
    have hk := hpre k (le_refl k) (by omega)
    have hlast' : (w.post (k + 1 + j)).isLoading = false := by
      have : k + 1 + j = k + (j + 1) := by omega
      rw [this]; exact hlast
    obtain ⟨r, hr⟩ := ih fuel' (k + 1) (by omega)
      (fun i hi1 hi2 => hpre i (by omega) (by omega)) hlast'
    refine ⟨r, ?_⟩
    simp only [analyzeImageWith, hread, afterPost_of_loading conv w _ hk]
    rw [hr]
    have : k + 1 + j + 1 = k + (j + 1) + 1 := by omega
    rw [this]

/-- C6, as the code has it: `analyzeImage` (both variants) posts again after
every `loading` answer, with no bound on the number of posts. When the file
reads and the first answer that is not a `loading` error is the one with index
`j`, an invocation with more than `j` passes allowed posts exactly `j + 1` times
and finishes with a list or an exception; and an invocation that only meets
`loading` answers does not finish within any number of passes. -/
theorem analyzeImage_posts_until_not_loading (w : World) (fuel : ℕ)
    (hread : w.readFileSync = .ok ()) :
    (∀ j, j < fuel → (∀ i, i < j → (w.post i).isLoading = true) →
      (w.post j).isLoading = false →
      (∃ r, Api.analyzeImage w fuel 0 = some (r, j + 1)) ∧
      (∃ r, Legacy.analyzeImage w fuel 0 = some (r, j + 1))) ∧
    ((∀ i, i < fuel → (w.post i).isLoading = true) →
      Api.analyzeImage w fuel 0 = none ∧ Legacy.analyzeImage w fuel 0 = none) := by
  constructor
  · intro j hj hpre hlast
    have hlast' : (w.post (0 + j)).isLoading = false := by rw [Nat.zero_add]; exact hlast
    have hpre' : ∀ i, 0 ≤ i → i < 0 + j → (w.post i).isLoading = true :=
      fun i _ hi => hpre i (by omega)
    obtain ⟨r₁, h₁⟩ :=
      analyzeImageWith_after_loading Api.toDetection w hread j fuel 0 hj hpre' hlast'
    obtain ⟨r₂, h₂⟩ :=
      analyzeImageWith_after_loading Legacy.toDetection w hread j fuel 0 hj hpre' hlast'
    rw [Nat.zero_add] at h₁ h₂
    exact ⟨⟨r₁, h₁⟩, ⟨r₂, h₂⟩⟩
  · intro hall
    have hall' : ∀ i, 0 ≤ i → i < 0 + fuel → (w.post i).isLoading = true :=
      fun i _ hi => hall i (by omega)
    exact ⟨analyzeImageWith_all_loading Api.toDetection w hread fuel 0 hall',
      analyzeImageWith_all_loading Legacy.toDetection w hread fuel 0 hall'⟩

/-- C6 fails as stated: when the first two answers are `loading` errors and the
third is an empty list, one invocation of `analyzeImage` posts three times
before it returns, which is more than twice. -/
theorem analyzeImage_posts_three_times :
    Api.analyzeImage loadingTwice 3 0 = some (.ok [], 3) ∧
    Legacy.analyzeImage loadingTwice 3 0 = some (.ok [], 3) ∧
    ¬(3 ≤ 2) := by
  refine ⟨rfl, rfl, by decide⟩

/-- C6 at a concrete world: two `loading` answers, then an empty list, with
five passes allowed; the invocation posts three times. -/
theorem analyzeImage_posts_until_not_loading_witness :
    (∃ r, Api.analyzeImage loadingTwice 5 0 = some (r, 2 + 1)) ∧
    (∃ r, Legacy.analyzeImage loadingTwice 5 0 = some (r, 2 + 1)) :=
  (analyzeImage_posts_until_not_loading loadingTwice 5 rfl).1 2 (by decide) (by decide) rfl

/-! ## C7: deleting an unknown image -/

/-- C7: when the metadata lookup of `/delete-image` does not resolve with a row
and no error (it rejects, reports an error, or finds no row), the handler
answers 500 with a JSON error message after the lookup alone: no blob removal
and no row deletion is issued. Conversely the answer `200 {success: true}` is
sent only when the lookup resolved with a row, the removal of that row's blob
resolved without error and the row deletion resolved without error. On the
model service, an id without a row gives `500 Metadata not found` and leaves
the state as it was. -/
theorem deleteImage_unknown_id {σ : Type} (sb : Supabase σ) (imageId : ℕ) (s : σ) :
    ((∀ name, (sb.selectFilename imageId s).1 ≠ .resolved (some name) none) →
      (∃ msg, (Api.deleteImage sb imageId s).1 = .jsonError 500 msg) ∧
      (Api.deleteImage sb imageId s).1 ≠ .jsonSuccess ∧
      (Api.deleteImage sb imageId s).2.1 = [.selectFilename imageId] ∧
      (Api.deleteImage sb imageId s).2.2 = (sb.selectFilename imageId s).2) ∧
    ((Api.deleteImage sb imageId s).1 = .jsonSuccess →
      ∃ name d₁ d₂,
        (sb.selectFilename imageId s).1 = .resolved (some name) none ∧
        (sb.storageRemove name (sb.selectFilename imageId s).2).1 = .resolved d₁ none ∧
        (sb.deleteMetadata imageId
          (sb.storageRemove name (sb.selectFilename imageId s).2).2).1 = .resolved d₂ none ∧
        (Api.deleteImage sb imageId s).2.1
          = [.selectFilename imageId, .storageRemove name, .deleteMetadata imageId]) ∧
    (∀ b : Backend, b.rows imageId = none →
      Api.deleteImage memory imageId b
        = (.jsonError 500 "Metadata not found", [.selectFilename imageId], b)) := by
  refine ⟨?_, ?_, ?_⟩
  · intro hfail
    rcases hsel : sb.selectFilename imageId s with ⟨r, s₁⟩
    rw [hsel] at hfail
    cases r with
    | rejected e => simp [Api.deleteImage, hsel]
    | resolved data err =>
      cases err with
      | some e => simp [Api.deleteImage, hsel]
      | none =>
        cases data with
        | none => simp [Api.deleteImage, hsel]
        | some name => exact absurd rfl (hfail name)
  · intro hok
    rcases hsel : sb.selectFilename imageId s with ⟨r, s₁⟩
    cases r with
    | rejected e => simp [Api.deleteImage, hsel] at hok
    | resolved data err =>
      cases err with
      | some e => simp [Api.deleteImage, hsel] at hok
      | none =>
        cases data with
        | none => simp [Api.deleteImage, hsel] at hok
        | some name =>
          rcases hrem : sb.storageRemove name s₁ with ⟨r₂, s₂⟩
          cases r₂ with
          | rejected e => simp [Api.deleteImage, hsel, hrem] at hok
          | resolved d₁ err₁ =>
            cases err₁ with
            | some e => simp [Api.deleteImage, hsel, hrem] at hok
            | none =>
              rcases hdel : sb.deleteMetadata imageId s₂ with ⟨r₃, s₃⟩
              cases r₃ with
              | rejected e => simp [Api.deleteImage, hsel, hrem, hdel] at hok
              | resolved d₂ err₂ =>
                cases err₂ with
                | some e => simp [Api.deleteImage, hsel, hrem, hdel] at hok
                | none =>
                  refine ⟨name, d₁, d₂, rfl, ?_, ?_, ?_⟩
                  · simp [hrem]
                  · simp [hrem, hdel]
                  · simp [Api.deleteImage, hsel, hrem, hdel]
  · intro b hb
    simp [Api.deleteImage, memory, hb]

/-- C7 on the model service with no row at all: deleting id 7. -/
theorem deleteImage_unknown_id_witness :
    (∃ msg, (Api.deleteImage memory 7 emptyBackend).1 = .jsonError 500 msg) ∧
    (Api.deleteImage memory 7 emptyBackend).1 ≠ .jsonSuccess ∧
    (Api.deleteImage memory 7 emptyBackend).2.1 = [.selectFilename 7] ∧
    (Api.deleteImage memory 7 emptyBackend).2.2 = (memory.selectFilename 7 emptyBackend).2 :=
  (deleteImage_unknown_id memory 7 emptyBackend).1
    (fun name h => by simp [memory, emptyBackend] at h)

/-! ## C8: uploads rejected before any outside call -/

/-- C8: when the upload middleware reports an error, or yields no file path,
the `/upload` and `/analyze` handlers answer 400 with a JSON error message,
whatever the fuel, and make no outside call at all (no `analyzeImage`, no storage
upload, no metadata insert); the service state is unchanged. For the error code
`LIMIT_FILE_SIZE` the `/upload` message is the 10 MB one. -/
theorem upload_rejected_before_outside_calls {σ : Type} (sb : Supabase σ) (w : World)
    (m : MulterOutcome) (now fuel : ℕ) (s : σ)
    (hm : (∃ code message, m = .error code message) ∨
      (∃ p, m = .parsed p ∧ missingPath p = true)) :
    (∃ msg, Api.upload sb w m now fuel s = some (.jsonError 400 msg, [], s)) ∧
    (∃ msg, Api.analyze w m fuel = some (.jsonError 400 msg, [])) ∧
    (∀ message, m = .error "LIMIT_FILE_SIZE" message →
      Api.upload sb w m now fuel s
        = some (.jsonError 400
            "The uploaded file exceeds the 10 MB limit. Please try a smaller file.", [], s)) := by
  rcases hm with ⟨code, message, rfl⟩ | ⟨p, rfl, hp⟩
  · refine ⟨?_, ⟨message, rfl⟩, ?_⟩
    · by_cases hc : code = "LIMIT_FILE_SIZE"
      · exact ⟨"The uploaded file exceeds the 10 MB limit. Please try a smaller file.",
          by simp [Api.upload, hc]⟩
      · exact ⟨message, by simp [Api.upload, hc]⟩
    · intro message' h
      cases h
      simp [Api.upload]
  · refine ⟨⟨"No file uploaded", by simp [Api.upload, hp]⟩,
      ⟨"No file uploaded", by simp [Api.analyze, hp]⟩, ?_⟩
    intro message' h
    cases h

/-- C8 at a concrete request: the middleware reports `LIMIT_FILE_SIZE`. -/
theorem upload_rejected_before_outside_calls_witness :
    (∃ msg, Api.upload memory (worldOf (.detections [rawBanana]))
        (.error "LIMIT_FILE_SIZE" "File too large") 1700000000000 1 emptyBackend
      = some (.jsonError 400 msg, [], emptyBackend)) ∧
    (∃ msg, Api.analyze (worldOf (.detections [rawBanana]))
        (.error "LIMIT_FILE_SIZE" "File too large") 1 = some (.jsonError 400 msg, [])) ∧
    (∀ message, MulterOutcome.error "LIMIT_FILE_SIZE" "File too large"
        = .error "LIMIT_FILE_SIZE" message →
      Api.upload memory (worldOf (.detections [rawBanana]))
        (.error "LIMIT_FILE_SIZE" "File too large") 1700000000000 1 emptyBackend
        = some (.jsonError 400
            "The uploaded file exceeds the 10 MB limit. Please try a smaller file.", [],
            emptyBackend)) :=
  upload_rejected_before_outside_calls memory (worldOf (.detections [rawBanana]))
    (.error "LIMIT_FILE_SIZE" "File too large") 1700000000000 1 emptyBackend
    (Or.inl ⟨_, _, rfl⟩)

/-! ## C10: upload, then download -/

theorem uploadCatch_ne_render (e : JsError) (view : String) (locals : ResultLocals) :
    Api.uploadCatch e ≠ .render view locals := by
  unfold Api.uploadCatch
  split <;> intro h <;> cases h

/-- A rendered `/upload` went through every step: a file path, a non-empty list
from `analyzeImage`, an encoded canvas, and the storing part. -/
theorem upload_render_inv {σ : Type} (sb : Supabase σ) (w : World) (m : MulterOutcome)
    (now fuel : ℕ) (s s' : σ) (view : String) (locals : ResultLocals) (trace : List Effect)
    (h : Api.upload sb w m now fuel s = some (.render view locals, trace, s')) :
    ∃ path annotations n buffer effects,
      m = .parsed (some path) ∧ annotations ≠ [] ∧
      Api.analyzeImage w fuel 0 = some (.ok annotations, n) ∧
      Api.annotateImageCanvas w annotations = .ok buffer ∧
      Api.uploadStore sb path now annotations buffer s = (.render view locals, effects, s') ∧
      trace = .analyzeImage n :: .annotateImageCanvas :: effects := by
  cases m with
  | error code message =>
    simp only [Api.upload] at h
    split at h <;> simp at h
  | parsed originalPath =>
    simp only [Api.upload] at h
    by_cases hmiss : missingPath originalPath = true
    · simp [hmiss] at h
    · simp only [hmiss, Bool.false_eq_true, if_false] at h
      cases originalPath with
      | none => simp [missingPath] at hmiss
      | some path =>
        simp only [Option.getD_some] at h
        cases han : Api.analyzeImage w fuel 0 with
        | none => simp [han] at h
        | some res =>
          rcases res with ⟨r, n⟩
          cases r with
          | error e =>
            simp only [han, Option.some.injEq, Prod.mk.injEq] at h
            exact absurd h.1 (uploadCatch_ne_render e view locals)
          | ok annotations =>
            simp only [han] at h
            by_cases hlen : annotations.length = 0
            · simp [hlen] at h
            · simp only [hlen, if_false] at h
              cases hann : Api.annotateImageCanvas w annotations with
              | error e =>
                simp only [hann, Option.some.injEq, Prod.mk.injEq] at h
                exact absurd h.1 (uploadCatch_ne_render e view locals)
              | ok buffer =>
                simp only [hann, Option.some.injEq, Prod.mk.injEq] at h
                obtain ⟨h1, h2, h3⟩ := h
                refine ⟨path, annotations, n, buffer,
                  (Api.uploadStore sb path now annotations buffer s).2.1, rfl, ?_, rfl, hann, ?_,
                  h2.symm⟩
                · intro hnil
                  exact hlen (by rw [hnil]; rfl)
                · rw [← h1, ← h3]

/-- On the model service, a rendered storing part wrote the encoded canvas
under the generated name, where no blob was before, and inserted one row with
that name under the id it rendered. -/
theorem uploadStore_memory_render (path : String) (now : ℕ) (annotations : List Detection)
    (buffer : Bytes) (s s' : Backend) (view : String) (locals : ResultLocals)
    (effects : List Effect)
    (h : Api.uploadStore memory path now annotations buffer s
      = (.render view locals, effects, s')) :
    s.blobs (uniqueFilename now) = none ∧
    locals.imageId = s.nextId ∧
    locals.detections = annotations ∧
    locals.ecoScore = ecoScore annotations ∧
    locals.total = annotations.length ∧
    s'.blobs = Function.update s.blobs (uniqueFilename now) (some buffer) ∧
    s'.rows = Function.update s.rows s.nextId (some (uniqueFilename now)) ∧
    effects = [.storageUpload (uniqueFilename now) buffer, .getPublicUrl (uniqueFilename now),
      .insertMetadata (uniqueFilename now), .cleanFiles path] := by
  cases hb : s.blobs (uniqueFilename now) with
  | some old =>
    simp only [Api.uploadStore, memory, hb, Prod.mk.injEq] at h
    exact absurd h.1 (uploadCatch_ne_render _ view locals)
  | none =>
    simp only [Api.uploadStore, memory, hb, Prod.mk.injEq, Reply.render.injEq] at h
    obtain ⟨⟨-, hl⟩, he, hs⟩ := h
    subst hl hs he
    exact ⟨rfl, rfl, rfl, rfl, rfl, rfl, rfl, rfl⟩

/-- C10: on the model of the blob store and the metadata table, when `/upload`
renders its result page with image id `i`, it has stored the bytes `B` that
`annotateImageCanvas` produced for the rendered detections under the generated
file name; the table maps `i` to that name and the store maps the name to `B`;
and `/download/i` on the state the upload left answers with a body equal to `B`
and a `Content-Disposition` header carrying that file name, leaving the state
as it is. -/
theorem upload_then_download (w : World) (m : MulterOutcome) (now fuel : ℕ)
    (s s' : Backend) (view : String) (locals : ResultLocals) (trace : List Effect)
    (h : Api.upload memory w m now fuel s = some (.render view locals, trace, s')) :
    ∃ B,
      Api.annotateImageCanvas w locals.detections = .ok B ∧
      Effect.storageUpload (uniqueFilename now) B ∈ trace ∧
      Effect.insertMetadata (uniqueFilename now) ∈ trace ∧
      s'.rows locals.imageId = some (uniqueFilename now) ∧
      s'.blobs (uniqueFilename now) = some B ∧
      Api.download memory locals.imageId s'
        = (.file "image/jpeg" ("attachment; filename=\"" ++ uniqueFilename now ++ "\"") B,
           [.selectFilename locals.imageId, .storageDownload (uniqueFilename now)], s') := by
  obtain ⟨path, annotations, n, buffer, effects, -, -, -, hann, hstore, htrace⟩ :=
    upload_render_inv memory w m now fuel s s' view locals trace h
  obtain ⟨-, hid, hdet, -, -, hblobs, hrows, heff⟩ :=
    uploadStore_memory_render path now annotations buffer s s' view locals effects hstore
  have hrow : s'.rows locals.imageId = some (uniqueFilename now) := by
    rw [hrows, hid, Function.update_same]
  have hblob : s'.blobs (uniqueFilename now) = some buffer := by
    rw [hblobs, Function.update_same]
  refine ⟨buffer, ?_, ?_, ?_, hrow, hblob, ?_⟩
  · rw [hdet]; exact hann
  · rw [htrace, heff]; simp
  · rw [htrace, heff]; simp
  · simp only [Api.download, memory, hrow, hblob]

theorem upload_sample :
    Api.upload memory sampleWorld (.parsed (some "/tmp/uploads/image-1.jpg")) 1700000000000 1
      emptyBackend
      = some (.render "result.ejs" sampleLocals,
          [.analyzeImage 1, .annotateImageCanvas,
           .storageUpload (uniqueFilename 1700000000000) sampleBuffer,
           .getPublicUrl (uniqueFilename 1700000000000),
           .insertMetadata (uniqueFilename 1700000000000),
           .cleanFiles "/tmp/uploads/image-1.jpg"],
          sampleBackend) := by
  have han : Api.analyzeImage sampleWorld 1 0 = some (.ok sampleDetections, 1) :=
    api_analyzeImage_banana_cup
  have hann : Api.annotateImageCanvas sampleWorld sampleDetections = .ok sampleBuffer := rfl
  have hmiss : missingPath (some "/tmp/uploads/image-1.jpg") = false := by decide
  have hlen : sampleDetections.length ≠ 0 := by decide
  have hblob : emptyBackend.blobs (uniqueFilename 1700000000000) = none := rfl
  simp only [Api.upload, hmiss, Bool.false_eq_true, if_false, Option.getD_some, han, hlen, hann,
    Api.uploadStore, memory, hblob]
  rfl

/-- C10 at a concrete request: the sample upload on the empty service, then the
download of id 1. -/
theorem upload_then_download_witness :
    ∃ B,
      Api.annotateImageCanvas sampleWorld sampleLocals.detections = .ok B ∧
      Effect.storageUpload (uniqueFilename 1700000000000) B ∈
        [Effect.analyzeImage 1, .annotateImageCanvas,
         .storageUpload (uniqueFilename 1700000000000) sampleBuffer,
         .getPublicUrl (uniqueFilename 1700000000000),
         .insertMetadata (uniqueFilename 1700000000000),
         .cleanFiles "/tmp/uploads/image-1.jpg"] ∧
      Effect.insertMetadata (uniqueFilename 1700000000000) ∈
        [Effect.analyzeImage 1, .annotateImageCanvas,
         .storageUpload (uniqueFilename 1700000000000) sampleBuffer,
         .getPublicUrl (uniqueFilename 1700000000000),
         .insertMetadata (uniqueFilename 1700000000000),
         .cleanFiles "/tmp/uploads/image-1.jpg"] ∧
      sampleBackend.rows sampleLocals.imageId = some (uniqueFilename 1700000000000) ∧
      sampleBackend.blobs (uniqueFilename 1700000000000) = some B ∧
      Api.download memory sampleLocals.imageId sampleBackend
        = (.file "image/jpeg"
            ("attachment; filename=\"" ++ uniqueFilename 1700000000000 ++ "\"") B,
           [.selectFilename sampleLocals.imageId,
            .storageDownload (uniqueFilename 1700000000000)], sampleBackend) :=
  upload_then_download sampleWorld (.parsed (some "/tmp/uploads/image-1.jpg")) 1700000000000 1
    emptyBackend sampleBackend "result.ejs" sampleLocals _ upload_sample

/-! ## C11: the eco-score division -/

/-- The share of `Biodegradable` detections in a non-empty list lies between 0
and 1. -/
theorem bioRatio_bounds (annotations : List Detection) (hne : annotations ≠ []) :
    1 ≤ annotations.length ∧ 0 ≤ bioRatio annotations ∧ bioRatio annotations ≤ 1 := by
  have hpos : 0 < annotations.length := List.length_pos.mpr hne
  have hposq : (0 : ℚ) < annotations.length := by exact_mod_cast hpos
  have hle : (biodegradable annotations).length ≤ annotations.length := by
    unfold biodegradable
    exact List.length_filter_le _ _
  have hleq : ((biodegradable annotations).length : ℚ) ≤ annotations.length := by
    exact_mod_cast hle
  refine ⟨hpos, ?_, ?_⟩
  · unfold bioRatio
    exact div_nonneg (by exact_mod_cast Nat.zero_le _) hposq.le
  · unfold bioRatio
    rw [div_le_one hposq]
    exact hleq

/-- The locals of a rendered storing part are computed from the list it was
given, for any behaviour of the service. -/
theorem uploadStore_render_locals {σ : Type} (sb : Supabase σ) (path : String) (now : ℕ)
    (annotations : List Detection) (buffer : Bytes) (s s' : σ) (view : String)
    (locals : ResultLocals) (effects : List Effect)
    (h : Api.uploadStore sb path now annotations buffer s = (.render view locals, effects, s')) :
    locals.detections = annotations ∧
    locals.total = annotations.length ∧
    locals.biodegradable = biodegradable annotations ∧
    locals.ecoScore = ecoScore annotations := by
  simp only [Api.uploadStore] at h
  rcases hup : sb.storageUpload (uniqueFilename now) buffer s with ⟨r₁, s₁⟩
  rw [hup] at h
  cases r₁ with
  | rejected e =>
    simp only [Prod.mk.injEq] at h
    exact absurd h.1 (uploadCatch_ne_render _ view locals)
  | resolved d₁ err₁ =>
    cases err₁ with
    | some e =>
      simp only [Prod.mk.injEq] at h
      exact absurd h.1 (uploadCatch_ne_render _ view locals)
    | none =>
      simp only at h
      rcases hins : sb.insertMetadata (uniqueFilename now) s₁ with ⟨r₂, s₂⟩
      rw [hins] at h
      cases r₂ with
      | rejected e =>
        simp only [Prod.mk.injEq] at h
        exact absurd h.1 (uploadCatch_ne_render _ view locals)
      | resolved d₂ err₂ =>
        cases err₂ with
        | some e =>
          simp only [Prod.mk.injEq] at h
          exact absurd h.1 (uploadCatch_ne_render _ view locals)
        | none =>
          cases d₂ with
          | none =>
            simp only [Prod.mk.injEq] at h
            exact absurd h.1 (uploadCatch_ne_render _ view locals)
          | some id =>
            simp only [Prod.mk.injEq, Reply.render.injEq] at h
            obtain ⟨⟨-, hl⟩, -, -⟩ := h
            subst hl
            exact ⟨rfl, rfl, rfl, rfl⟩

/-- An `/upload` that issued a storage upload or a metadata insert, or that
rendered, got a non-empty list from `analyzeImage` and ran the storing part on
it. -/
theorem upload_store_inv {σ : Type} (sb : Supabase σ) (w : World) (m : MulterOutcome)
    (now fuel : ℕ) (s s' : σ) (reply : Reply) (trace : List Effect)
    (h : Api.upload sb w m now fuel s = some (reply, trace, s'))
    (hreach : (∃ name B, Effect.storageUpload name B ∈ trace) ∨
      (∃ name, Effect.insertMetadata name ∈ trace) ∨
      (∃ view locals, reply = .render view locals)) :
    ∃ path annotations n buffer effects,
      m = .parsed (some path) ∧ annotations ≠ [] ∧
      Api.analyzeImage w fuel 0 = some (.ok annotations, n) ∧
      Api.annotateImageCanvas w annotations = .ok buffer ∧
      Api.uploadStore sb path now annotations buffer s = (reply, effects, s') ∧
      trace = .analyzeImage n :: .annotateImageCanvas :: effects := by
  have hcatch : ∀ e, reply = Api.uploadCatch e → ¬ ∃ view locals, reply = .render view locals := by
    rintro e rfl ⟨view, locals, hr⟩
    exact uploadCatch_ne_render e view locals hr
  cases m with
  | error code message =>
    simp only [Api.upload] at h
    split at h <;>
      · simp only [Option.some.injEq, Prod.mk.injEq] at h
        obtain ⟨rfl, rfl, -⟩ := h
        simp at hreach
  | parsed originalPath =>
    simp only [Api.upload] at h
    by_cases hmiss : missingPath originalPath = true
    · simp only [hmiss, if_true, Option.some.injEq, Prod.mk.injEq] at h
      obtain ⟨rfl, rfl, -⟩ := h
      simp at hreach
    · simp only [hmiss, Bool.false_eq_true, if_false] at h
      cases originalPath with
      | none => simp [missingPath] at hmiss
      | some path =>
        simp only [Option.getD_some] at h
        cases han : Api.analyzeImage w fuel 0 with
        | none => simp [han] at h
        | some res =>
          rcases res with ⟨r, n⟩
          cases r with
          | error e =>
            simp only [han, Option.some.injEq, Prod.mk.injEq] at h
            obtain ⟨hr, rfl, -⟩ := h
            have := hcatch e hr.symm
            simp [this] at hreach
          | ok annotations =>
            simp only [han] at h
            by_cases hlen : annotations.length = 0
            · simp only [hlen, if_true, Option.some.injEq, Prod.mk.injEq] at h
              obtain ⟨rfl, rfl, -⟩ := h
              simp at hreach
            · simp only [hlen, if_false] at h
              cases hann : Api.annotateImageCanvas w annotations with
              | error e =>
                simp only [hann, Option.some.injEq, Prod.mk.injEq] at h
                obtain ⟨hr, rfl, -⟩ := h
                have := hcatch e hr.symm
                simp [this] at hreach
              | ok buffer =>
                simp only [hann, Option.some.injEq, Prod.mk.injEq] at h
                obtain ⟨h1, h2, h3⟩ := h
                refine ⟨path, annotations, n, buffer,
                  (Api.uploadStore sb path now annotations buffer s).2.1, rfl, ?_, rfl, hann, ?_,
                  h2.symm⟩
                · intro hnil
                  exact hlen (by rw [hnil]; rfl)
                · rw [← h1, ← h3]

/-- C11: in the `/upload` handler of `src/api/index.js`, whenever `analyzeImage`
returns an empty list the answer is `200 <h2>No objects found</h2>` after
`analyzeImage` and `cleanFiles` alone, with the service state unchanged: no
storage upload and no metadata insert. Whenever a storage upload or a metadata
insert was issued, or the result page was rendered (the ratio is computed only
after the insert), the list `analyzeImage` returned has `total ≥ 1` entries and
its ratio `biodegradable.length / total` lies between 0 and 1; the rendered
`total`, `biodegradable` and `ecoScore` are those of that list. -/
theorem upload_ratio_total_positive {σ : Type} (sb : Supabase σ) (w : World)
    (m : MulterOutcome) (now fuel : ℕ) (s : σ) :
    (∀ path n, m = .parsed (some path) → missingPath (some path) = false →
      Api.analyzeImage w fuel 0 = some (.ok [], n) →
      Api.upload sb w m now fuel s
        = some (.text 200 "<h2>No objects found</h2>",
            [.analyzeImage n, .cleanFiles path], s)) ∧
    (∀ reply trace s', Api.upload sb w m now fuel s = some (reply, trace, s') →
      ((∃ name B, Effect.storageUpload name B ∈ trace) ∨
        (∃ name, Effect.insertMetadata name ∈ trace) ∨
        (∃ view locals, reply = .render view locals)) →
      ∃ annotations n,
        Api.analyzeImage w fuel 0 = some (.ok annotations, n) ∧
        1 ≤ annotations.length ∧
        0 ≤ bioRatio annotations ∧ bioRatio annotations ≤ 1 ∧
        bioRatio annotations
          = ((biodegradable annotations).length : ℚ) / (annotations.length : ℚ) ∧
        ∀ view locals, reply = .render view locals →
          locals.total = annotations.length ∧ 1 ≤ locals.total ∧
          locals.biodegradable = biodegradable annotations ∧
          locals.ecoScore = ecoScore annotations) := by
  constructor
  · rintro path n rfl hpath han
    simp [Api.upload, hpath, han]
  · intro reply trace s' h hreach
    obtain ⟨path, annotations, n, buffer, effects, -, hne, han, -, hstore, -⟩ :=
      upload_store_inv sb w m now fuel s s' reply trace h hreach
    obtain ⟨hpos, h0, h1⟩ := bioRatio_bounds annotations hne
    refine ⟨annotations, n, han, hpos, h0, h1, rfl, ?_⟩
    rintro view locals rfl
    obtain ⟨-, htot, hbio, heco⟩ :=
      uploadStore_render_locals sb path now annotations buffer s s' view locals effects hstore
    exact ⟨htot, by rw [htot]; exact hpos, hbio, heco⟩

theorem api_analyzeImage_bottle_only :
    Api.analyzeImage (worldOf (.detections [rawBottle])) 1 0 = some (.ok [], 1) := by
  rw [Api.analyzeImage, analyzeImageWith_detections Api.toDetection _ ⟨200, 100⟩
    [rawBottle] 0 0 rfl rfl rfl]
  simp only [List.filter, retained_rawBottle, mapThrowing]

/-- C11 at two concrete requests: a response whose only detection has score
exactly 0.5, so that `analyzeImage` returns an empty list; and the sample
upload, which renders. -/
theorem upload_ratio_total_positive_witness :
    Api.upload memory (worldOf (.detections [rawBottle]))
        (.parsed (some "/tmp/uploads/image-2.jpg")) 1700000000000 1 emptyBackend
      = some (.text 200 "<h2>No objects found</h2>",
          [.analyzeImage 1, .cleanFiles "/tmp/uploads/image-2.jpg"], emptyBackend) ∧
    (∃ annotations n,
      Api.analyzeImage sampleWorld 1 0 = some (.ok annotations, n) ∧
      1 ≤ annotations.length ∧
      0 ≤ bioRatio annotations ∧ bioRatio annotations ≤ 1 ∧
      bioRatio annotations
        = ((biodegradable annotations).length : ℚ) / (annotations.length : ℚ) ∧
      ∀ view locals, Reply.render "result.ejs" sampleLocals = .render view locals →
        locals.total = annotations.length ∧ 1 ≤ locals.total ∧
        locals.biodegradable = biodegradable annotations ∧
        locals.ecoScore = ecoScore annotations) :=
  ⟨(upload_ratio_total_positive memory (worldOf (.detections [rawBottle]))
      (.parsed (some "/tmp/uploads/image-2.jpg")) 1700000000000 1 emptyBackend).1
      "/tmp/uploads/image-2.jpg" 1 rfl (by decide) api_analyzeImage_bottle_only,
   (upload_ratio_total_positive memory sampleWorld
      (.parsed (some "/tmp/uploads/image-1.jpg")) 1700000000000 1 emptyBackend).2
      _ _ _ upload_sample (Or.inr (Or.inr ⟨_, _, rfl⟩))⟩

end GarbageSegregation
